import Mathlib

/-!
# go-onebot-openai-lambda: completion-and-delivery orchestrator

A shallow embedding of `go-onebot-openai-lambda.go` and theorems about it.

Modelling conventions.

* Go `string` values are Lean `String`s (the texts handled here come out of
  `json.Unmarshal` or are constants, hence valid UTF-8); the scanning code
  works on the list of characters.
* Go `int` is a 64-bit signed integer: values are `Int`, and the one place
  where arithmetic can overflow (`time.Duration(retryDelay) * time.Second`)
  wraps explicitly.  `uint64` values are `Nat`.
* The outside world (the completion service, the HTTP transport, the JSON
  decoder of the inbound event) is a record of functions `Env`.  A call to the
  completion service or to the transport is answered by the environment as a
  function of the number of such calls made before it and of the request.
* Effects are recorded in an explicit `State`: two call counters and the
  chronological list of `Event`s.  Log output is not modelled.
* A Go run-time panic (index out of range) is an explicit outcome.
-/

namespace OnebotLambda

/-! ## Basic types -/

/-- A Go `error` value, identified by its message. -/
structure Error where
  msg : String
  deriving DecidableEq, Repr

/-- A decoded JSON value (what `interface{}` holds, and what `json.Marshal` emits). -/
inductive Json where
  | null : Json
  | str (s : String) : Json
  | num (n : Nat) : Json
  | arr (items : List Json) : Json
  | obj (fields : List (String × Json)) : Json

/-- The nested `Sender` struct of `OnebotGroupMessageRequestBody` (lines 35-45). -/
structure Sender where
  Age : Int
  Area : String
  Card : String
  Level : String
  Nickname : String
  Role : String
  Sex : String
  Title : String
  UserID : Int

/-- The inbound event, `OnebotGroupMessageRequestBody` (lines 27-52). -/
structure OnebotGroupMessageRequestBody where
  PostType : String
  MessageType : String
  Time : Int
  SelfID : Int
  SubType : String
  Message : String
  MessageSeq : Int
  Sender : Sender
  UserID : Nat
  Anonymous : Json
  GroupID : Nat
  RawMessage : String
  MessageID : Int
  Font : Int

/-- The part of `events.APIGatewayProxyRequest` that `HandleRequest` reads
outside of logging. -/
structure APIGatewayProxyRequest where
  Body : String

/-- The package-level variables read from the process environment (lines 21-25);
`os.Getenv` yields the empty string for an unset variable. -/
structure Config where
  extraLog : String
  openaiApiKey : String
  envMaxRetries : String
  envRetryDelay : String
  receiverAddr : String

/-- One `openai.ChatCompletionMessage`. -/
structure ChatCompletionMessage where
  Role : String
  Content : String
  Name : String
  deriving DecidableEq, Repr

/-- The `openai.ChatCompletionRequest` built by `SendChatCompletion`. -/
structure ChatCompletionRequest where
  Model : String
  Messages : List ChatCompletionMessage
  deriving DecidableEq, Repr

/-- One entry of `openai.ChatCompletionResponse.Choices`. -/
structure ChatCompletionChoice where
  Message : ChatCompletionMessage
  deriving DecidableEq, Repr

/-- The part of `openai.ChatCompletionResponse` that the program reads. -/
structure ChatCompletionResponse where
  Choices : List ChatCompletionChoice
  deriving DecidableEq, Repr

/-- The constant `openai.GPT40314`. -/
def GPT40314 : String := "gpt-4-0314"

/-- The constant `openai.GPT3Dot5Turbo0301`. -/
def GPT3Dot5Turbo0301 : String := "gpt-3.5-turbo-0301"

/-- The constant `openai.ChatMessageRoleUser`. -/
def ChatMessageRoleUser : String := "user"

/-- The local type `tMessage` of `SendGroupMessageBack` (lines 158-161); `Data`
is always a `map[string]string`, kept as its list of entries. -/
structure tMessage where
  type : String
  Data : List (String × String)
  deriving DecidableEq, Repr

/-- The local type `tRequestBody` of `SendGroupMessageBack` (lines 162-165). -/
structure tRequestBody where
  GroupID : Nat
  Message : List tMessage
  deriving DecidableEq, Repr

/-- An HTTP request as handed to `client.Do`. -/
structure HttpRequest where
  method : String
  url : String
  contentType : String
  body : Json

/-- What the program does to the outside world, in order. -/
inductive Event where
  /-- one `CreateChatCompletion` request -/
  | completion (req : ChatCompletionRequest) : Event
  /-- one `time.Sleep`, with its duration in nanoseconds -/
  | sleep (nanos : Int) : Event
  /-- one call of `SendGroupMessageBack(msg, gid, uid)` -/
  | sendBack (msg : String) (gid uid : Nat) : Event
  /-- one `client.Do` of a request -/
  | post (req : HttpRequest) : Event

/-- The outside world.  `CreateChatCompletion n req` is the answer of the
completion client to `req` when `n` completion requests were issued before it;
`Do n req` is the transport error (if any) of `client.Do(req)` inside the call
of `SendGroupMessageBack` that `n` such calls preceded; `NewRequest url` is the error (if any) of
`http.NewRequest("POST", url, _)`; `Unmarshal body` is `json.Unmarshal` into an
`OnebotGroupMessageRequestBody`. -/
structure Env where
  Unmarshal : String → Except Error OnebotGroupMessageRequestBody
  CreateChatCompletion : Nat → ChatCompletionRequest → Except Error ChatCompletionResponse
  NewRequest : String → Option Error
  Do : Nat → HttpRequest → Option Error

/-- The effect state threaded through the program. -/
structure State where
  /-- number of completion requests issued so far -/
  completions : Nat
  /-- number of calls of `SendGroupMessageBack` made so far -/
  deliveries : Nat
  trace : List Event

/-- The state at the start of an invocation. -/
def State.init : State := ⟨0, 0, []⟩

/-- Record one event. -/
def State.emit (st : State) (e : Event) : State :=
  { st with trace := st.trace ++ [e] }

/-! ## `SendChatCompletion` (lines 214-242) -/

/-- How a call of `SendChatCompletion` ends: it returns `(text, err)`, or the
Go run time panics on `openaiResp.Choices[0]`. -/
inductive ChatResult where
  | returned (text : String) (err : Option Error) : ChatResult
  | indexOutOfRange : ChatResult
  deriving DecidableEq, Repr

/-- The request built at lines 219-227. -/
def chatRequest (prompt model : String) : ChatCompletionRequest :=
  { Model := model,
    Messages := [{ Role := ChatMessageRoleUser, Content := prompt, Name := "" }] }

/-- Lines 230-241, given the client's answer: an error is returned with the
empty text; otherwise `Choices[0].Message.Content` is returned, and indexing
an empty `Choices` panics.  The verbose branch (lines 235-239) only logs, and
reads the same `Choices[0]`. -/
def chatOutcome (answer : Except Error ChatCompletionResponse) : ChatResult :=
  match answer with
  | .error err => .returned "" (some err)
  | .ok openaiResp =>
    match openaiResp.Choices with
    | [] => .indexOutOfRange
    | choice :: _ => .returned choice.Message.Content none

/-- The function `SendChatCompletion(prompt, model)`: one request to the
completion service, no retry. -/
def SendChatCompletion (env : Env) (prompt model : String) (st : State) : ChatResult × State :=
  let req := chatRequest prompt model
  let answer := env.CreateChatCompletion st.completions req
  (chatOutcome answer,
    { (st.emit (.completion req)) with completions := st.completions + 1 })

/-! ## `SendGroupMessageBack` (lines 157-212) -/

/-- Decimal digit `d` as a character. -/
def digitChar (d : Nat) : Char := Char.ofNat (48 + d)

/-- The digit loop of `strconv.FormatUint(u, 10)`: peel off `u % 10` while
`u >= 10`, most significant digit first in the result.  The first argument
bounds the number of iterations. -/
def formatBits : Nat → Nat → List Char → List Char
  | 0, _, acc => acc
  | fuel + 1, u, acc =>
    if u < 10 then digitChar u :: acc
    else formatBits fuel (u / 10) (digitChar (u % 10) :: acc)

/-- The library function `strconv.FormatUint(u, 10)`. -/
def FormatUint (u : Nat) : String := String.mk (formatBits (u + 1) u [])

/-- The value `data` built at lines 168-184. -/
def requestData (msg : String) (gid uid : Nat) : tRequestBody :=
  { GroupID := gid,
    Message := [
      { type := "at", Data := [("qq", FormatUint uid)] },
      { type := "text", Data := [("text", msg)] } ] }

/-- The JSON value of a `map[string]string`. -/
def marshalMap (m : List (String × String)) : Json :=
  .obj (m.map fun kv => (kv.1, Json.str kv.2))

/-- The JSON value of a `tMessage`, by its field tags. -/
def marshalMessage (m : tMessage) : Json :=
  .obj [("type", .str m.type), ("data", marshalMap m.Data)]

/-- The JSON value that `json.Marshal(data)` serialises, by the field tags of
`tRequestBody`.  Marshalling these types cannot fail. -/
def marshal (data : tRequestBody) : Json :=
  .obj [("group_id", .num data.GroupID), ("message", .arr (data.Message.map marshalMessage))]

/-- The function `SendGroupMessageBack(msg, gid, uid)`: build the body, create
the POST request (return its error if that fails), send it (return the
transport error if any), else return nil.  The response is not inspected. -/
def SendGroupMessageBack (env : Env) (cfg : Config) (msg : String) (gid uid : Nat)
    (st : State) : Option Error × State :=
  let nth := st.deliveries
  let st := { (st.emit (.sendBack msg gid uid)) with deliveries := st.deliveries + 1 }
  let url := cfg.receiverAddr ++ "/send_group_msg"
  let data := requestData msg gid uid
  let jsonData := marshal data
  match env.NewRequest url with
  | some err => (some err, st)
  | none =>
    let req : HttpRequest :=
      { method := "POST", url := url, contentType := "application/json", body := jsonData }
    (env.Do nth req, st.emit (.post req))

/-- What the call of `SendChatCompletion(prompt, model)` returns when it issues
completion request number `i` (counted from 0) of the invocation. -/
def callOutcome (env : Env) (i : Nat) (prompt model : String) : ChatResult :=
  (SendChatCompletion env prompt model ⟨i, 0, []⟩).1

/-- A call of `SendChatCompletion` that returned an error. -/
def ChatResult.failed : ChatResult → Bool
  | .returned _ (some _) => true
  | _ => false

/-- What call number `i` (counted from 0) of `SendGroupMessageBack(msg, gid, uid)`
returns. -/
def deliveryResult (env : Env) (cfg : Config) (i : Nat) (msg : String) (gid uid : Nat) :
    Option Error :=
  (SendGroupMessageBack env cfg msg gid uid ⟨0, i, []⟩).1

/-! ## Configuration: `strconv.Atoi` and the retry policy (lines 98-109) -/

/-- The class `\d` of Go regular expressions, and the digits accepted by
`strconv`: the ASCII digits `0` to `9`. -/
def isDigit (c : Char) : Bool := decide (48 ≤ c.toNat ∧ c.toNat ≤ 57)

/-- The value of an ASCII digit. -/
def digitVal (c : Char) : Nat := c.toNat - 48

/-- Read a run of decimal digits, most significant first, onto `acc`; `none`
when a character is not a digit. -/
def parseDigits : Nat → List Char → Option Nat
  | acc, [] => some acc
  | acc, c :: cs => if isDigit c then parseDigits (acc * 10 + digitVal c) cs else none

/-- The error `strconv.ErrSyntax`. -/
def errBadNumber : Error := ⟨"invalid syntax"⟩

/-- The error `strconv.ErrRange`. -/
def errRange : Error := ⟨"value out of range"⟩

/-- The library function `strconv.Atoi` on a 64-bit platform: an optional sign
`+` or `-`, then one or more decimal digits, the value lying in the range of
`int`; anything else is an error. -/
def Atoi (s : String) : Except Error Int :=
  match s.data with
  | [] => .error errBadNumber
  | c :: cs =>
    let ds := if c = '-' ∨ c = '+' then cs else c :: cs
    match ds with
    | [] => .error errBadNumber
    | d :: ds1 =>
      match parseDigits 0 (d :: ds1) with
      | none => .error errBadNumber
      | some n =>
        let v : Int := if c = '-' then -(n : Int) else (n : Int)
        if -(2 : Int) ^ 63 ≤ v ∧ v < (2 : Int) ^ 63 then .ok v else .error errRange

/-- The variable `maxRetries` after lines 99-103. -/
def maxRetriesOf (cfg : Config) : Int :=
  match Atoi cfg.envMaxRetries with
  | .ok v => v
  | .error _ => 3

/-- The variable `retryDelay` after lines 105-109 (a number of seconds). -/
def retryDelayOf (cfg : Config) : Int :=
  match Atoi cfg.envRetryDelay with
  | .ok v => v
  | .error _ => 5

/-- Two-complement wrap-around of a signed 64-bit product. -/
def wrapInt64 (x : Int) : Int := (x + 2 ^ 63) % 2 ^ 64 - 2 ^ 63

/-- The duration `time.Duration(retryDelay) * time.Second`, in nanoseconds. -/
def sleepNanos (retryDelay : Int) : Int := wrapInt64 (retryDelay * 1000000000)

/-! ## Mention stripping (lines 67-69) -/

/-- The literal head `[CQ:at,qq=` of the pattern. -/
def mentionOpen : List Char := ['[', 'C', 'Q', ':', 'a', 't', ',', 'q', 'q', '=']

/-- Match a literal at the head of a text; the rest of the text on success. -/
def stripLiteral : List Char → List Char → Option (List Char)
  | [], l => some l
  | _ :: _, [] => none
  | p :: ps, c :: cs => if p = c then stripLiteral ps cs else none

/-- The length of the match of the regular expression `\[CQ:at,qq=\d+\]`
anchored at the head of `l`, if there is one: the literal head, then the
longest run of digits (`\d+` is greedy), which must not be empty, then `]`.
Giving digits back cannot help, since the character after a shorter run is a
digit and not `]`. -/
def matchMention (l : List Char) : Option Nat :=
  match stripLiteral mentionOpen l with
  | none => none
  | some r =>
    match r.takeWhile isDigit, r.dropWhile isDigit with
    | _ :: ds, c :: _ => if c = ']' then some (mentionOpen.length + (ds.length + 1) + 1) else none
    | _, _ => none

/-- The scan of `re.ReplaceAllString(src, "")`: matches are searched left to
right, each search starting where the previous match ended; text outside the
matches is copied.  `skip` is the number of characters that still belong to
the match being dropped. -/
def replaceAllFrom : Nat → List Char → List Char
  | _, [] => []
  | skip + 1, _ :: cs => replaceAllFrom skip cs
  | 0, c :: cs =>
    match matchMention (c :: cs) with
    | some n => replaceAllFrom (n - 1) cs
    | none => c :: replaceAllFrom 0 cs

/-- The expression `re.ReplaceAllString(raw, "")` of line 69. -/
def ReplaceAllString (raw : String) : String := String.mk (replaceAllFrom 0 raw.data)

/-! ## Mention tokens, as the specification words them -/

/-- A mention token: the text `[CQ:at,qq=`, then one or more ASCII digits,
then `]`.  Written so that it can be decided: the first ten characters are the
head literal, and the rest is a non-empty run of digits closed by `]`
(`isMentionToken_iff` gives the form `mentionOpen ++ ds ++ [']']`). -/
def IsMentionToken (t : List Char) : Prop :=
  t.take mentionOpen.length = mentionOpen ∧
    2 ≤ (t.drop mentionOpen.length).length ∧
    (∀ c ∈ (t.drop mentionOpen.length).dropLast, isDigit c = true) ∧
    (t.drop mentionOpen.length).getLast? = some ']'

instance (t : List Char) : Decidable (IsMentionToken t) := by
  unfold IsMentionToken; infer_instance

/-- The `n` characters of `s` from position `i` on are an occurrence of a
mention token. -/
def OccursAt (s : List Char) (i n : Nat) : Prop :=
  i + n ≤ s.length ∧ IsMentionToken ((s.drop i).take n)

instance (s : List Char) (i n : Nat) : Decidable (OccursAt s i n) := by
  unfold OccursAt; infer_instance

/-- Position `p` of `s` lies inside an occurrence of a mention token. -/
def InMention (s : List Char) (p : Nat) : Prop :=
  ∃ i, i < p + 1 ∧ ∃ n, n < s.length + 1 ∧ p < i + n ∧ OccursAt s i n

instance (s : List Char) (p : Nat) : Decidable (InMention s p) := by
  unfold InMention; infer_instance

/-- The text `s` contains an occurrence of a mention token. -/
def HasMention (s : List Char) : Prop :=
  ∃ i, i < s.length + 1 ∧ ∃ n, n < s.length + 1 ∧ OccursAt s i n

instance (s : List Char) : Decidable (HasMention s) := by
  unfold HasMention; infer_instance

/-- The text `s` with every occurrence of a mention token deleted and nothing
else changed: the characters at the positions outside all occurrences, in
their order. -/
def deleteMentions (s : List Char) : List Char :=
  (List.range s.length).filterMap fun p => if InMention s p then none else s[p]?

/-! ## `HandleRequest` (lines 58-155) -/

/-- The notice prepended at line 130. -/
def degradedNotice : String := "(对话降级至GPT-3.5)\n"

/-- The notice assigned at line 137. -/
def allFailedNotice : String := "GPT-4、GPT-3.5尝试均失败，请稍后再试。"

/-- The variables `resp` and `errOpenai`. -/
structure Reply where
  resp : String
  errOpenai : Option Error
  deriving DecidableEq, Repr

/-- The loop of lines 113-119, with the number of iterations still allowed by
`retryCounts < maxRetries`.  `none` is a panic inside `SendChatCompletion`. -/
def gpt4Loop (env : Env) (prompt : String) (retryDelay : Int) :
    Nat → Reply → State → Option Reply × State
  | 0, v, st => (some v, st)
  | n + 1, _, st =>
    match SendChatCompletion env prompt GPT40314 st with
    | (.indexOutOfRange, st1) => (none, st1)
    | (.returned resp none, st1) => (some ⟨resp, none⟩, st1)
    | (.returned resp (some err), st1) =>
      gpt4Loop env prompt retryDelay n ⟨resp, some err⟩ (st1.emit (.sleep (sleepNanos retryDelay)))

/-- The loop of lines 127-134. -/
def gpt35Loop (env : Env) (prompt : String) (retryDelay : Int) :
    Nat → Reply → State → Option Reply × State
  | 0, v, st => (some v, st)
  | n + 1, _, st =>
    match SendChatCompletion env prompt GPT3Dot5Turbo0301 st with
    | (.indexOutOfRange, st1) => (none, st1)
    | (.returned resp none, st1) => (some ⟨degradedNotice ++ resp, none⟩, st1)
    | (.returned resp (some err), st1) =>
      gpt35Loop env prompt retryDelay n ⟨resp, some err⟩ (st1.emit (.sleep (sleepNanos retryDelay)))

/-- Lines 111-139: the primary loop, then, if it ended with an error, the
secondary loop and the substitution of the fixed notice. -/
def completionPhase (env : Env) (prompt : String) (maxRetries retryDelay : Int) (st : State) :
    Option Reply × State :=
  match gpt4Loop env prompt retryDelay maxRetries.toNat ⟨"", none⟩ st with
  | (none, st1) => (none, st1)
  | (some v, st1) =>
    match v.errOpenai with
    | none => (some v, st1)
    | some _ =>
      match gpt35Loop env prompt retryDelay maxRetries.toNat ⟨v.resp, none⟩ st1 with
      | (none, st2) => (none, st2)
      | (some w, st2) =>
        match w.errOpenai with
        | none => (some w, st2)
        | some err => (some ⟨allFailedNotice, some err⟩, st2)

/-- The loop of lines 143-149; the result is the final `errSendBack`. -/
def sendBackLoop (env : Env) (cfg : Config) (resp : String) (gid uid : Nat) (retryDelay : Int) :
    Nat → Option Error → State → Option Error × State
  | 0, e, st => (e, st)
  | n + 1, _, st =>
    match SendGroupMessageBack env cfg resp gid uid st with
    | (none, st1) => (none, st1)
    | (some err, st1) =>
      sendBackLoop env cfg resp gid uid retryDelay n (some err)
        (st1.emit (.sleep (sleepNanos retryDelay)))

/-- How an invocation of `HandleRequest` ends. -/
inductive Outcome where
  | returned (err : Option Error) : Outcome
  | panicked : Outcome
  deriving DecidableEq, Repr

/-- The function `HandleRequest(ctx, req)`. -/
def HandleRequest (env : Env) (cfg : Config) (req : APIGatewayProxyRequest) : Outcome × State :=
  match env.Unmarshal req.Body with
  | .error errUnmarshal => (.returned (some errUnmarshal), State.init)
  | .ok onebotGrpMsgReqBody =>
    let onebotMessageContext := ReplaceAllString onebotGrpMsgReqBody.RawMessage
    let gid := onebotGrpMsgReqBody.GroupID
    let uid := onebotGrpMsgReqBody.UserID
    let maxRetries := maxRetriesOf cfg
    let retryDelay := retryDelayOf cfg
    match completionPhase env onebotMessageContext maxRetries retryDelay State.init with
    | (none, st1) => (.panicked, st1)
    | (some v, st1) =>
      let sent := sendBackLoop env cfg v.resp gid uid retryDelay maxRetries.toNat none st1
      (.returned none, sent.2)

/-! ## Reading a trace -/

/-- The completion requests of a trace, in order. -/
def completionCalls : List Event → List ChatCompletionRequest
  | [] => []
  | .completion req :: es => req :: completionCalls es
  | _ :: es => completionCalls es

/-- The arguments of the calls of `SendGroupMessageBack` of a trace, in order. -/
def sendBackCalls : List Event → List (String × Nat × Nat)
  | [] => []
  | .sendBack msg gid uid :: es => (msg, gid, uid) :: sendBackCalls es
  | _ :: es => sendBackCalls es

/-- The waits of a trace, in order. -/
def sleeps : List Event → List Int
  | [] => []
  | .sleep d :: es => d :: sleeps es
  | _ :: es => sleeps es

/-- The number of completion requests of a trace that name `model`. -/
def callsTo (model : String) (trace : List Event) : Nat :=
  ((completionCalls trace).filter fun req => req.Model = model).length

/-- The events of `j` failed attempts of a completion tier: each a request
followed by a wait. -/
def failedRounds (req : ChatCompletionRequest) (nanos : Int) : Nat → List Event
  | 0 => []
  | j + 1 => .completion req :: .sleep nanos :: failedRounds req nanos j

/-- Read a non-empty decimal numeral as a natural number. -/
def parseDecimal (s : String) : Option Nat :=
  match s.data with
  | [] => none
  | c :: cs => parseDigits 0 (c :: cs)

/-- The bodies of the requests sent by a trace, in order. -/
def postedBodies : List Event → List Json
  | [] => []
  | .post req :: es => req.body :: postedBodies es
  | _ :: es => postedBodies es

/-- The retry policy is valid: a positive number of attempts and a
non-negative delay. -/
def validPolicy (cfg : Config) : Prop :=
  0 < maxRetriesOf cfg ∧ 0 ≤ retryDelayOf cfg ∧ 0 ≤ sleepNanos (retryDelayOf cfg)

/-! ## Sample inputs -/

/-- A sender record. -/
def sampleSender : Sender :=
  { Age := 0, Area := "", Card := "", Level := "", Nickname := "", Role := "member", Sex := "",
    Title := "", UserID := 12345 }

/-- The event of the scenario: user 12345 mentions itself in group 100 and says hello. -/
def sampleBody : OnebotGroupMessageRequestBody :=
  { PostType := "message", MessageType := "group", Time := 0, SelfID := 0, SubType := "normal",
    Message := "[CQ:at,qq=12345]hello", MessageSeq := 0, Sender := sampleSender, UserID := 12345,
    Anonymous := .null, GroupID := 100, RawMessage := "[CQ:at,qq=12345]hello", MessageID := 0,
    Font := 0 }

/-- A service answer with one choice carrying `text`. -/
def answerWith (text : String) : Except Error ChatCompletionResponse :=
  .ok { Choices := [{ Message := { Role := "assistant", Content := text, Name := "" } }] }

/-- A service answer without an error and without any choice. -/
def answerEmpty : Except Error ChatCompletionResponse := .ok { Choices := [] }

/-- A failed service call. -/
def answerDown : Except Error ChatCompletionResponse := .error ⟨"service unavailable"⟩

/-- An environment that decodes every body to `sampleBody`, answers completion
request number `n` with `answers n`, and whose transport returns `transport n`
in delivery number `n`. -/
def scriptedEnv (answers : Nat → Except Error ChatCompletionResponse)
    (transport : Nat → Option Error) : Env :=
  { Unmarshal := fun _ => .ok sampleBody,
    CreateChatCompletion := fun n _ => answers n,
    NewRequest := fun _ => none,
    Do := fun n _ => transport n }

/-- A configuration with the given `MAX_RETRIES` and `RETRY_DELAY` strings. -/
def sampleConfig (maxRetries retryDelay : String) : Config :=
  { extraLog := "", openaiApiKey := "key", envMaxRetries := maxRetries,
    envRetryDelay := retryDelay, receiverAddr := "http://127.0.0.1:5700" }

/-- The request of the sample event. -/
def sampleRequest : APIGatewayProxyRequest := { Body := "" }

end OnebotLambda

namespace OnebotLambda

/-! ## Traces -/

theorem completionCalls_append (a b : List Event) :
    completionCalls (a ++ b) = completionCalls a ++ completionCalls b := by
  induction a with
  | nil => rfl
  | cons e es ih => cases e <;> simp [completionCalls, ih]

theorem sendBackCalls_append (a b : List Event) :
    sendBackCalls (a ++ b) = sendBackCalls a ++ sendBackCalls b := by
  induction a with
  | nil => rfl
  | cons e es ih => cases e <;> simp [sendBackCalls, ih]

theorem sleeps_append (a b : List Event) : sleeps (a ++ b) = sleeps a ++ sleeps b := by
  induction a with
  | nil => rfl
  | cons e es ih => cases e <;> simp [sleeps, ih]

theorem completionCalls_failedRounds (req : ChatCompletionRequest) (d : Int) (j : Nat) :
    completionCalls (failedRounds req d j) = List.replicate j req := by
  induction j with
  | zero => rfl
  | succ j ih => simp [failedRounds, completionCalls, ih, List.replicate_succ]

theorem sendBackCalls_failedRounds (req : ChatCompletionRequest) (d : Int) (j : Nat) :
    sendBackCalls (failedRounds req d j) = [] := by
  induction j with
  | zero => rfl
  | succ j ih => simp [failedRounds, sendBackCalls, ih]

theorem sleeps_failedRounds (req : ChatCompletionRequest) (d : Int) (j : Nat) :
    sleeps (failedRounds req d j) = List.replicate j d := by
  induction j with
  | zero => rfl
  | succ j ih => simp [failedRounds, sleeps, ih, List.replicate_succ]

/-! ## One call -/

theorem SendChatCompletion_fst (env : Env) (prompt model : String) (st : State) :
    (SendChatCompletion env prompt model st).1 = callOutcome env st.completions prompt model := rfl

theorem SendChatCompletion_snd (env : Env) (prompt model : String) (st : State) :
    (SendChatCompletion env prompt model st).2 =
      ⟨st.completions + 1, st.deliveries, st.trace ++ [.completion (chatRequest prompt model)]⟩ := rfl

theorem callOutcome_failed_text {env : Env} {i : Nat} {prompt model : String}
    (h : (callOutcome env i prompt model).failed = true) :
    ∃ err, callOutcome env i prompt model = .returned "" (some err) := by
  unfold callOutcome SendChatCompletion chatOutcome at *
  simp only at *
  split at h
  · exact ⟨_, rfl⟩
  · split at h <;> simp [ChatResult.failed] at h

/-! ## The completion tiers -/

/-- The primary loop when its first `j` calls fail and call `j + 1` succeeds. -/
theorem gpt4Loop_success (env : Env) (prompt : String) (d : Int) (t : String) :
    ∀ (n j : Nat) (v : Reply) (st : State), j < n →
      (∀ i, i < j → (callOutcome env (st.completions + i) prompt GPT40314).failed = true) →
      callOutcome env (st.completions + j) prompt GPT40314 = .returned t none →
      gpt4Loop env prompt d n v st =
        (some ⟨t, none⟩,
          ⟨st.completions + (j + 1), st.deliveries,
            st.trace ++ (failedRounds (chatRequest prompt GPT40314) (sleepNanos d) j ++
              [.completion (chatRequest prompt GPT40314)])⟩) := by
  intro n
  induction n with
  | zero => intro j v st hj; omega
  | succ n ih =>
    intro j v st hj hfail hsucc
    cases j with
    | zero =>
      have h0 : (SendChatCompletion env prompt GPT40314 st).1 = .returned t none := by
        rw [SendChatCompletion_fst]; simpa using hsucc
      have h1 := SendChatCompletion_snd env prompt GPT40314 st
      rw [gpt4Loop]
      rcases hx : SendChatCompletion env prompt GPT40314 st with ⟨r, st1⟩
      rw [hx] at h0 h1
      simp only at h0 h1
      subst h0 h1
      simp [failedRounds]
    | succ j =>
      obtain ⟨err, herr⟩ := callOutcome_failed_text (hfail 0 (by omega))
      have h0 : (SendChatCompletion env prompt GPT40314 st).1 = .returned "" (some err) := by
        rw [SendChatCompletion_fst]; simpa using herr
      have h1 := SendChatCompletion_snd env prompt GPT40314 st
      rw [gpt4Loop]
      rcases hx : SendChatCompletion env prompt GPT40314 st with ⟨r, st1⟩
      rw [hx] at h0 h1
      simp only at h0 h1
      subst h0 h1
      simp only
      rw [ih j _ _ (by omega)]
      · simp [State.emit, failedRounds]; omega
      · intro i hi
        have := hfail (i + 1) (by omega)
        simpa [State.emit, Nat.add_assoc, Nat.add_comm 1 i] using this
      · simpa [State.emit, Nat.add_assoc, Nat.add_comm 1 j] using hsucc

/-- The primary loop when all its `n` calls fail: `n` requests, each followed
by a wait. -/
theorem gpt4Loop_allFail (env : Env) (prompt : String) (d : Int) :
    ∀ (n : Nat) (v : Reply) (st : State),
      (∀ i, i < n → (callOutcome env (st.completions + i) prompt GPT40314).failed = true) →
      ∃ w, gpt4Loop env prompt d n v st =
          (some w,
            ⟨st.completions + n, st.deliveries,
              st.trace ++ failedRounds (chatRequest prompt GPT40314) (sleepNanos d) n⟩) ∧
        (n = 0 → w = v) ∧ (0 < n → w.resp = "" ∧ w.errOpenai ≠ none) := by
  intro n
  induction n with
  | zero => intro v st _; exact ⟨v, by simp [gpt4Loop, failedRounds], fun _ => rfl, fun h => by omega⟩
  | succ n ih =>
    intro v st hfail
    obtain ⟨err, herr⟩ := callOutcome_failed_text (hfail 0 (by omega))
    have h0 : (SendChatCompletion env prompt GPT40314 st).1 = .returned "" (some err) := by
      rw [SendChatCompletion_fst]; simpa using herr
    have h1 := SendChatCompletion_snd env prompt GPT40314 st
    rw [gpt4Loop]
    rcases hx : SendChatCompletion env prompt GPT40314 st with ⟨r, st1⟩
    rw [hx] at h0 h1
    simp only at h0 h1
    subst h0 h1
    simp only
    obtain ⟨w, hw, hw0, hwpos⟩ := ih ⟨"", some err⟩
      (State.emit ⟨st.completions + 1, st.deliveries,
        st.trace ++ [.completion (chatRequest prompt GPT40314)]⟩ (.sleep (sleepNanos d)))
      (by
        intro i hi
        have := hfail (i + 1) (by omega)
        simpa [State.emit, Nat.add_assoc, Nat.add_comm 1 i] using this)
    refine ⟨w, ?_, fun h => by omega, fun _ => ?_⟩
    · rw [hw]; simp [State.emit, failedRounds]; omega
    · rcases Nat.eq_zero_or_pos n with hn | hn
      · rw [hw0 hn]; simp
      · exact hwpos hn

/-- The secondary loop when its first `j` calls fail and call `j + 1` succeeds. -/
theorem gpt35Loop_success (env : Env) (prompt : String) (d : Int) (t : String) :
    ∀ (n j : Nat) (v : Reply) (st : State), j < n →
      (∀ i, i < j → (callOutcome env (st.completions + i) prompt GPT3Dot5Turbo0301).failed = true) →
      callOutcome env (st.completions + j) prompt GPT3Dot5Turbo0301 = .returned t none →
      gpt35Loop env prompt d n v st =
        (some ⟨degradedNotice ++ t, none⟩,
          ⟨st.completions + (j + 1), st.deliveries,
            st.trace ++ (failedRounds (chatRequest prompt GPT3Dot5Turbo0301) (sleepNanos d) j ++
              [.completion (chatRequest prompt GPT3Dot5Turbo0301)])⟩) := by
  intro n
  induction n with
  | zero => intro j v st hj; omega
  | succ n ih =>
    intro j v st hj hfail hsucc
    cases j with
    | zero =>
      have h0 : (SendChatCompletion env prompt GPT3Dot5Turbo0301 st).1 = .returned t none := by
        rw [SendChatCompletion_fst]; simpa using hsucc
      have h1 := SendChatCompletion_snd env prompt GPT3Dot5Turbo0301 st
      rw [gpt35Loop]
      rcases hx : SendChatCompletion env prompt GPT3Dot5Turbo0301 st with ⟨r, st1⟩
      rw [hx] at h0 h1
      simp only at h0 h1
      subst h0 h1
      simp [failedRounds]
    | succ j =>
      obtain ⟨err, herr⟩ := callOutcome_failed_text (hfail 0 (by omega))
      have h0 : (SendChatCompletion env prompt GPT3Dot5Turbo0301 st).1 =
          .returned "" (some err) := by
        rw [SendChatCompletion_fst]; simpa using herr
      have h1 := SendChatCompletion_snd env prompt GPT3Dot5Turbo0301 st
      rw [gpt35Loop]
      rcases hx : SendChatCompletion env prompt GPT3Dot5Turbo0301 st with ⟨r, st1⟩
      rw [hx] at h0 h1
      simp only at h0 h1
      subst h0 h1
      simp only
      rw [ih j _ _ (by omega)]
      · simp [State.emit, failedRounds]; omega
      · intro i hi
        have := hfail (i + 1) (by omega)
        simpa [State.emit, Nat.add_assoc, Nat.add_comm 1 i] using this
      · simpa [State.emit, Nat.add_assoc, Nat.add_comm 1 j] using hsucc

/-- The secondary loop when all its `n` calls fail. -/
theorem gpt35Loop_allFail (env : Env) (prompt : String) (d : Int) :
    ∀ (n : Nat) (v : Reply) (st : State),
      (∀ i, i < n →
        (callOutcome env (st.completions + i) prompt GPT3Dot5Turbo0301).failed = true) →
      ∃ w, gpt35Loop env prompt d n v st =
          (some w,
            ⟨st.completions + n, st.deliveries,
              st.trace ++ failedRounds (chatRequest prompt GPT3Dot5Turbo0301) (sleepNanos d) n⟩) ∧
        (n = 0 → w = v) ∧ (0 < n → w.resp = "" ∧ w.errOpenai ≠ none) := by
  intro n
  induction n with
  | zero =>
    intro v st _
    exact ⟨v, by simp [gpt35Loop, failedRounds], fun _ => rfl, fun h => by omega⟩
  | succ n ih =>
    intro v st hfail
    obtain ⟨err, herr⟩ := callOutcome_failed_text (hfail 0 (by omega))
    have h0 : (SendChatCompletion env prompt GPT3Dot5Turbo0301 st).1 =
        .returned "" (some err) := by
      rw [SendChatCompletion_fst]; simpa using herr
    have h1 := SendChatCompletion_snd env prompt GPT3Dot5Turbo0301 st
    rw [gpt35Loop]
    rcases hx : SendChatCompletion env prompt GPT3Dot5Turbo0301 st with ⟨r, st1⟩
    rw [hx] at h0 h1
    simp only at h0 h1
    subst h0 h1
    simp only
    obtain ⟨w, hw, hw0, hwpos⟩ := ih ⟨"", some err⟩
      (State.emit ⟨st.completions + 1, st.deliveries,
        st.trace ++ [.completion (chatRequest prompt GPT3Dot5Turbo0301)]⟩ (.sleep (sleepNanos d)))
      (by
        intro i hi
        have := hfail (i + 1) (by omega)
        simpa [State.emit, Nat.add_assoc, Nat.add_comm 1 i] using this)
    refine ⟨w, ?_, fun h => by omega, fun _ => ?_⟩
    · rw [hw]; simp [State.emit, failedRounds]; omega
    · rcases Nat.eq_zero_or_pos n with hn | hn
      · rw [hw0 hn]; simp
      · exact hwpos hn

/-! ## Delivery -/

theorem SendGroupMessageBack_fst (env : Env) (cfg : Config) (msg : String) (gid uid : Nat)
    (st : State) :
    (SendGroupMessageBack env cfg msg gid uid st).1 =
      deliveryResult env cfg st.deliveries msg gid uid := by
  unfold deliveryResult SendGroupMessageBack
  simp only
  split <;> rfl

theorem SendGroupMessageBack_snd (env : Env) (cfg : Config) (msg : String) (gid uid : Nat)
    (st : State) :
    (SendGroupMessageBack env cfg msg gid uid st).2.completions = st.completions ∧
    (SendGroupMessageBack env cfg msg gid uid st).2.deliveries = st.deliveries + 1 ∧
    completionCalls (SendGroupMessageBack env cfg msg gid uid st).2.trace =
      completionCalls st.trace ∧
    sendBackCalls (SendGroupMessageBack env cfg msg gid uid st).2.trace =
      sendBackCalls st.trace ++ [(msg, gid, uid)] ∧
    sleeps (SendGroupMessageBack env cfg msg gid uid st).2.trace = sleeps st.trace := by
  unfold SendGroupMessageBack
  simp only
  split <;>
    simp [State.emit, completionCalls_append, sendBackCalls_append, sleeps_append,
      completionCalls, sendBackCalls, sleeps]

/-- The delivery loop when its first `j` calls fail and call `j + 1` returns
nil: `j + 1` calls with the same arguments, `j` waits, final error nil. -/
theorem sendBackLoop_success (env : Env) (cfg : Config) (msg : String) (gid uid : Nat) (d : Int) :
    ∀ (n j : Nat) (e : Option Error) (st : State), j < n →
      (∀ i, i < j → deliveryResult env cfg (st.deliveries + i) msg gid uid ≠ none) →
      deliveryResult env cfg (st.deliveries + j) msg gid uid = none →
      (sendBackLoop env cfg msg gid uid d n e st).1 = none ∧
      completionCalls (sendBackLoop env cfg msg gid uid d n e st).2.trace =
        completionCalls st.trace ∧
      sendBackCalls (sendBackLoop env cfg msg gid uid d n e st).2.trace =
        sendBackCalls st.trace ++ List.replicate (j + 1) (msg, gid, uid) ∧
      sleeps (sendBackLoop env cfg msg gid uid d n e st).2.trace =
        sleeps st.trace ++ List.replicate j (sleepNanos d) := by
  intro n
  induction n with
  | zero => intro j e st hj; omega
  | succ n ih =>
    intro j e st hj hfail hsucc
    have h0 := SendGroupMessageBack_fst env cfg msg gid uid st
    obtain ⟨_, h2, h3, h4, h5⟩ := SendGroupMessageBack_snd env cfg msg gid uid st
    rw [sendBackLoop]
    rcases hx : SendGroupMessageBack env cfg msg gid uid st with ⟨r, st1⟩
    rw [hx] at h0 h2 h3 h4 h5
    simp only at h0 h2 h3 h4 h5
    cases j with
    | zero =>
      have hr : r = none := by rw [h0]; simpa using hsucc
      subst hr
      simp [h3, h4, h5]
    | succ j =>
      have hr : r ≠ none := by rw [h0]; simpa using hfail 0 (by omega)
      cases r with
      | none => exact absurd rfl hr
      | some err =>
        simp only
        have := ih j (some err) (st1.emit (.sleep (sleepNanos d))) (by omega)
          (by
            intro i hi
            have := hfail (i + 1) (by omega)
            simpa [State.emit, h2, Nat.add_assoc, Nat.add_comm 1 i] using this)
          (by simpa [State.emit, h2, Nat.add_assoc, Nat.add_comm 1 j] using hsucc)
        obtain ⟨a1, a2, a3, a4⟩ := this
        refine ⟨a1, ?_, ?_, ?_⟩
        · rw [a2]; simp [State.emit, completionCalls_append, completionCalls, h3]
        · rw [a3]
          simp [State.emit, sendBackCalls_append, sendBackCalls, h4, List.replicate_succ]
        · rw [a4]
          simp [State.emit, sleeps_append, sleeps, h5, List.replicate_succ]

/-- The delivery loop when all its `n` calls fail: `n` calls with the same
arguments, each followed by a wait. -/
theorem sendBackLoop_allFail (env : Env) (cfg : Config) (msg : String) (gid uid : Nat) (d : Int) :
    ∀ (n : Nat) (e : Option Error) (st : State),
      (∀ i, i < n → deliveryResult env cfg (st.deliveries + i) msg gid uid ≠ none) →
      completionCalls (sendBackLoop env cfg msg gid uid d n e st).2.trace =
        completionCalls st.trace ∧
      sendBackCalls (sendBackLoop env cfg msg gid uid d n e st).2.trace =
        sendBackCalls st.trace ++ List.replicate n (msg, gid, uid) ∧
      sleeps (sendBackLoop env cfg msg gid uid d n e st).2.trace =
        sleeps st.trace ++ List.replicate n (sleepNanos d) := by
  intro n
  induction n with
  | zero => intro e st _; simp [sendBackLoop]
  | succ n ih =>
    intro e st hfail
    have h0 := SendGroupMessageBack_fst env cfg msg gid uid st
    obtain ⟨_, h2, h3, h4, h5⟩ := SendGroupMessageBack_snd env cfg msg gid uid st
    rw [sendBackLoop]
    rcases hx : SendGroupMessageBack env cfg msg gid uid st with ⟨r, st1⟩
    rw [hx] at h0 h2 h3 h4 h5
    simp only at h0 h2 h3 h4 h5
    have hr : r ≠ none := by rw [h0]; simpa using hfail 0 (by omega)
    cases r with
    | none => exact absurd rfl hr
    | some err =>
      simp only
      have := ih (some err) (st1.emit (.sleep (sleepNanos d)))
        (by
          intro i hi
          have := hfail (i + 1) (by omega)
          simpa [State.emit, h2, Nat.add_assoc, Nat.add_comm 1 i] using this)
      obtain ⟨a2, a3, a4⟩ := this
      refine ⟨?_, ?_, ?_⟩
      · rw [a2]; simp [State.emit, completionCalls_append, completionCalls, h3]
      · rw [a3]
        simp [State.emit, sendBackCalls_append, sendBackCalls, h4, List.replicate_succ]
      · rw [a4]
        simp [State.emit, sleeps_append, sleeps, h5, List.replicate_succ]

/-- Whatever the transport does, the delivery loop with a positive budget makes
between 1 and `n` calls, all with the same arguments, and no completion
request. -/
theorem sendBackLoop_calls (env : Env) (cfg : Config) (msg : String) (gid uid : Nat) (d : Int) :
    ∀ (n : Nat) (e : Option Error) (st : State), 0 < n →
      ∃ j, 1 ≤ j ∧ j ≤ n ∧
        completionCalls (sendBackLoop env cfg msg gid uid d n e st).2.trace =
          completionCalls st.trace ∧
        sendBackCalls (sendBackLoop env cfg msg gid uid d n e st).2.trace =
          sendBackCalls st.trace ++ List.replicate j (msg, gid, uid) := by
  intro n
  induction n with
  | zero => intro e st h; omega
  | succ n ih =>
    intro e st _
    obtain ⟨_, _, h3, h4, _⟩ := SendGroupMessageBack_snd env cfg msg gid uid st
    rw [sendBackLoop]
    rcases hx : SendGroupMessageBack env cfg msg gid uid st with ⟨r, st1⟩
    rw [hx] at h3 h4
    simp only at h3 h4
    cases r with
    | none => exact ⟨1, le_refl _, by omega, by simp [h3], by simp [h4]⟩
    | some err =>
      simp only
      rcases Nat.eq_zero_or_pos n with hn | hn
      · subst hn
        refine ⟨1, le_refl _, by omega, ?_, ?_⟩
        · simp [sendBackLoop, State.emit, completionCalls_append, completionCalls, h3]
        · simp [sendBackLoop, State.emit, sendBackCalls_append, sendBackCalls, h4]
      · obtain ⟨j, hj1, hj2, a2, a3⟩ := ih (some err) (st1.emit (.sleep (sleepNanos d))) hn
        refine ⟨j + 1, by omega, by omega, ?_, ?_⟩
        · rw [a2]; simp [State.emit, completionCalls_append, completionCalls, h3]
        · rw [a3]
          simp [State.emit, sendBackCalls_append, sendBackCalls, h4, List.replicate_succ]

/-! ## The completion phase -/

theorem completionPhase_primary (env : Env) (prompt : String) (maxRetries d : Int) (t : String)
    (j : Nat) (st : State) (hj : j < maxRetries.toNat)
    (hfail : ∀ i, i < j → (callOutcome env (st.completions + i) prompt GPT40314).failed = true)
    (hsucc : callOutcome env (st.completions + j) prompt GPT40314 = .returned t none) :
    completionPhase env prompt maxRetries d st =
      (some ⟨t, none⟩,
        ⟨st.completions + (j + 1), st.deliveries,
          st.trace ++ (failedRounds (chatRequest prompt GPT40314) (sleepNanos d) j ++
            [.completion (chatRequest prompt GPT40314)])⟩) := by
  unfold completionPhase
  rw [gpt4Loop_success env prompt d t _ j _ st hj hfail hsucc]

theorem completionPhase_secondary (env : Env) (prompt : String) (maxRetries d : Int) (t : String)
    (j : Nat) (st : State) (hj : j < maxRetries.toNat)
    (hfail4 : ∀ i, i < maxRetries.toNat →
      (callOutcome env (st.completions + i) prompt GPT40314).failed = true)
    (hfail : ∀ i, i < j →
      (callOutcome env (st.completions + maxRetries.toNat + i) prompt
        GPT3Dot5Turbo0301).failed = true)
    (hsucc : callOutcome env (st.completions + maxRetries.toNat + j) prompt GPT3Dot5Turbo0301 =
      .returned t none) :
    completionPhase env prompt maxRetries d st =
      (some ⟨degradedNotice ++ t, none⟩,
        ⟨st.completions + maxRetries.toNat + (j + 1), st.deliveries,
          st.trace ++ failedRounds (chatRequest prompt GPT40314) (sleepNanos d) maxRetries.toNat ++
            (failedRounds (chatRequest prompt GPT3Dot5Turbo0301) (sleepNanos d) j ++
              [.completion (chatRequest prompt GPT3Dot5Turbo0301)])⟩) := by
  unfold completionPhase
  obtain ⟨w, hw, _, hwpos⟩ := gpt4Loop_allFail env prompt d maxRetries.toNat ⟨"", none⟩ st hfail4
  obtain ⟨_, hw2⟩ := hwpos (by omega)
  rw [hw]
  simp only
  cases hwe : w.errOpenai with
  | none => exact absurd hwe hw2
  | some err =>
    simp only
    rw [gpt35Loop_success env prompt d t _ j _ _ hj hfail hsucc]

theorem completionPhase_allFail (env : Env) (prompt : String) (maxRetries d : Int) (st : State)
    (hpos : 0 < maxRetries.toNat)
    (hfail4 : ∀ i, i < maxRetries.toNat →
      (callOutcome env (st.completions + i) prompt GPT40314).failed = true)
    (hfail : ∀ i, i < maxRetries.toNat →
      (callOutcome env (st.completions + maxRetries.toNat + i) prompt
        GPT3Dot5Turbo0301).failed = true) :
    ∃ err, completionPhase env prompt maxRetries d st =
      (some ⟨allFailedNotice, some err⟩,
        ⟨st.completions + maxRetries.toNat + maxRetries.toNat, st.deliveries,
          st.trace ++ failedRounds (chatRequest prompt GPT40314) (sleepNanos d) maxRetries.toNat ++
            failedRounds (chatRequest prompt GPT3Dot5Turbo0301) (sleepNanos d)
              maxRetries.toNat⟩) := by
  unfold completionPhase
  obtain ⟨w, hw, _, hwpos⟩ := gpt4Loop_allFail env prompt d maxRetries.toNat ⟨"", none⟩ st hfail4
  obtain ⟨_, hw2⟩ := hwpos hpos
  rw [hw]
  simp only
  cases hwe : w.errOpenai with
  | none => exact absurd hwe hw2
  | some err =>
    simp only
    obtain ⟨u, hu, _, hupos⟩ := gpt35Loop_allFail env prompt d maxRetries.toNat ⟨w.resp, none⟩
      ⟨st.completions + maxRetries.toNat, st.deliveries,
        st.trace ++ failedRounds (chatRequest prompt GPT40314) (sleepNanos d) maxRetries.toNat⟩
      hfail
    obtain ⟨_, hu2⟩ := hupos hpos
    rw [hu]
    simp only
    cases hue : u.errOpenai with
    | none => exact absurd hue hu2
    | some err2 => exact ⟨err2, rfl⟩

theorem callsTo_replicate_same (prompt model : String) (k : Nat) :
    ((List.replicate k (chatRequest prompt model)).filter fun req => req.Model = model).length =
      k := by
  induction k with
  | zero => rfl
  | succ k ih => simp [List.replicate_succ, chatRequest, ih]

theorem callsTo_replicate_other (prompt model other : String) (h : model ≠ other) (k : Nat) :
    ((List.replicate k (chatRequest prompt model)).filter fun req => req.Model = other).length =
      0 := by
  induction k with
  | zero => rfl
  | succ k ih => simp [List.replicate_succ, chatRequest, ih, h]

theorem models_distinct : GPT40314 ≠ GPT3Dot5Turbo0301 := by decide

/-! ## The orchestrator -/

/-- C1. If the event parses, `maxRetries` is `m`, and the primary-model call
fails on attempts `1..k-1` and succeeds on attempt `k <= m` with text `t`, then
`HandleRequest` issues exactly `k` completion requests, all to the primary
model with the clean prompt, none to the secondary model, and every call of
`SendGroupMessageBack` (there is at least one) carries exactly `t`. -/
theorem HandleRequest_primary_success (env : Env) (cfg : Config) (req : APIGatewayProxyRequest)
    (body : OnebotGroupMessageRequestBody) (m k : Nat) (t : String)
    (hparse : env.Unmarshal req.Body = .ok body)
    (hm : maxRetriesOf cfg = (m : Int)) (hk : 1 ≤ k) (hkm : k ≤ m)
    (hfail : ∀ i, i + 1 < k →
      (callOutcome env i (ReplaceAllString body.RawMessage) GPT40314).failed = true)
    (hsucc : callOutcome env (k - 1) (ReplaceAllString body.RawMessage) GPT40314 =
      .returned t none) :
    completionCalls (HandleRequest env cfg req).2.trace =
        List.replicate k (chatRequest (ReplaceAllString body.RawMessage) GPT40314) ∧
      callsTo GPT40314 (HandleRequest env cfg req).2.trace = k ∧
      callsTo GPT3Dot5Turbo0301 (HandleRequest env cfg req).2.trace = 0 ∧
      (∃ j, 1 ≤ j ∧ j ≤ m ∧ sendBackCalls (HandleRequest env cfg req).2.trace =
        List.replicate j (t, body.GroupID, body.UserID)) ∧
      (HandleRequest env cfg req).1 = .returned none := by
  have hcomp := completionPhase_primary env (ReplaceAllString body.RawMessage) (maxRetriesOf cfg)
    (retryDelayOf cfg) t (k - 1) State.init (by rw [hm]; simp; omega)
    (by intro i hi; simpa [State.init] using hfail i (by omega))
    (by simpa [State.init] using hsucc)
  obtain ⟨j, hj1, hj2, hc, hs⟩ := sendBackLoop_calls env cfg t body.GroupID body.UserID
    (retryDelayOf cfg) (maxRetriesOf cfg).toNat none
    ⟨State.init.completions + (k - 1 + 1), State.init.deliveries,
      State.init.trace ++ (failedRounds (chatRequest (ReplaceAllString body.RawMessage) GPT40314)
        (sleepNanos (retryDelayOf cfg)) (k - 1) ++
        [.completion (chatRequest (ReplaceAllString body.RawMessage) GPT40314)])⟩
    (by rw [hm]; simp; omega)
  have hcalls : completionCalls (HandleRequest env cfg req).2.trace =
      List.replicate k (chatRequest (ReplaceAllString body.RawMessage) GPT40314) := by
    unfold HandleRequest
    rw [hparse]
    simp only
    rw [hcomp]
    simp only
    rw [hc]
    simp only [State.init, List.nil_append, completionCalls_append, completionCalls_failedRounds,
      completionCalls]
    rw [← List.replicate_succ', Nat.sub_add_cancel hk]
  refine ⟨hcalls, ?_, ?_, ⟨j, hj1, ?_, ?_⟩, ?_⟩
  · unfold callsTo; rw [hcalls]; exact callsTo_replicate_same _ _ _
  · unfold callsTo; rw [hcalls]; exact callsTo_replicate_other _ _ _ models_distinct _
  · rw [hm] at hj2; simpa using hj2
  · unfold HandleRequest
    rw [hparse]
    simp only
    rw [hcomp]
    simp only
    rw [hs]
    simp [State.init, sendBackCalls_append, sendBackCalls_failedRounds, sendBackCalls]
  · unfold HandleRequest
    rw [hparse]
    simp only
    rw [hcomp]

/-- Witness for C1: budget 3, the first primary call fails, the second
answers "hi". -/
theorem HandleRequest_primary_success_witness :
    completionCalls (HandleRequest
        (scriptedEnv (fun n => if n = 1 then answerWith "hi" else answerDown) fun _ => none)
        (sampleConfig "3" "0") sampleRequest).2.trace =
        List.replicate 2 (chatRequest (ReplaceAllString sampleBody.RawMessage) GPT40314) ∧
      callsTo GPT40314 (HandleRequest
        (scriptedEnv (fun n => if n = 1 then answerWith "hi" else answerDown) fun _ => none)
        (sampleConfig "3" "0") sampleRequest).2.trace = 2 ∧
      callsTo GPT3Dot5Turbo0301 (HandleRequest
        (scriptedEnv (fun n => if n = 1 then answerWith "hi" else answerDown) fun _ => none)
        (sampleConfig "3" "0") sampleRequest).2.trace = 0 ∧
      (∃ j, 1 ≤ j ∧ j ≤ 3 ∧ sendBackCalls (HandleRequest
        (scriptedEnv (fun n => if n = 1 then answerWith "hi" else answerDown) fun _ => none)
        (sampleConfig "3" "0") sampleRequest).2.trace =
        List.replicate j ("hi", sampleBody.GroupID, sampleBody.UserID)) ∧
      (HandleRequest
        (scriptedEnv (fun n => if n = 1 then answerWith "hi" else answerDown) fun _ => none)
        (sampleConfig "3" "0") sampleRequest).1 = .returned none :=
  HandleRequest_primary_success
    (scriptedEnv (fun n => if n = 1 then answerWith "hi" else answerDown) fun _ => none)
    (sampleConfig "3" "0") sampleRequest sampleBody 3 2 "hi" rfl rfl (by decide) (by decide)
    (by intro i hi; have h0 : i = 0 := by omega
        subst h0; rfl)
    rfl

/-- C2. If the event parses, `maxRetries` is `m`, all `m` primary-model calls
fail, and the secondary-model call fails on attempts `1..k-1` and succeeds on
attempt `k <= m` with text `t`, then `HandleRequest` issues exactly `m` primary
requests followed by exactly `k` secondary requests, and every call of
`SendGroupMessageBack` (there is at least one) carries the degradation notice
followed by `t`, the notice occurring once in front. -/
theorem HandleRequest_secondary_success (env : Env) (cfg : Config)
    (req : APIGatewayProxyRequest) (body : OnebotGroupMessageRequestBody) (m k : Nat)
    (t : String)
    (hparse : env.Unmarshal req.Body = .ok body)
    (hm : maxRetriesOf cfg = (m : Int)) (hk : 1 ≤ k) (hkm : k ≤ m)
    (hfail4 : ∀ i, i < m →
      (callOutcome env i (ReplaceAllString body.RawMessage) GPT40314).failed = true)
    (hfail : ∀ i, i + 1 < k →
      (callOutcome env (m + i) (ReplaceAllString body.RawMessage) GPT3Dot5Turbo0301).failed =
        true)
    (hsucc : callOutcome env (m + (k - 1)) (ReplaceAllString body.RawMessage)
      GPT3Dot5Turbo0301 = .returned t none) :
    completionCalls (HandleRequest env cfg req).2.trace =
        List.replicate m (chatRequest (ReplaceAllString body.RawMessage) GPT40314) ++
          List.replicate k (chatRequest (ReplaceAllString body.RawMessage) GPT3Dot5Turbo0301) ∧
      callsTo GPT40314 (HandleRequest env cfg req).2.trace = m ∧
      callsTo GPT3Dot5Turbo0301 (HandleRequest env cfg req).2.trace = k ∧
      (∃ j, 1 ≤ j ∧ j ≤ m ∧ sendBackCalls (HandleRequest env cfg req).2.trace =
        List.replicate j ("(对话降级至GPT-3.5)\n" ++ t, body.GroupID, body.UserID)) ∧
      (HandleRequest env cfg req).1 = .returned none := by
  have hmn : (maxRetriesOf cfg).toNat = m := by rw [hm]; simp
  have hcomp := completionPhase_secondary env (ReplaceAllString body.RawMessage)
    (maxRetriesOf cfg) (retryDelayOf cfg) t (k - 1) State.init (by rw [hmn]; omega)
    (by intro i hi; rw [hmn] at hi; simpa [State.init] using hfail4 i hi)
    (by intro i hi; rw [hmn]; simpa [State.init] using hfail i (by omega))
    (by rw [hmn]; simpa [State.init] using hsucc)
  obtain ⟨j, hj1, hj2, hc, hs⟩ := sendBackLoop_calls env cfg (degradedNotice ++ t) body.GroupID
    body.UserID (retryDelayOf cfg) (maxRetriesOf cfg).toNat none
    ⟨State.init.completions + (maxRetriesOf cfg).toNat + (k - 1 + 1), State.init.deliveries,
      State.init.trace ++ failedRounds (chatRequest (ReplaceAllString body.RawMessage) GPT40314)
          (sleepNanos (retryDelayOf cfg)) (maxRetriesOf cfg).toNat ++
        (failedRounds (chatRequest (ReplaceAllString body.RawMessage) GPT3Dot5Turbo0301)
          (sleepNanos (retryDelayOf cfg)) (k - 1) ++
        [.completion (chatRequest (ReplaceAllString body.RawMessage) GPT3Dot5Turbo0301)])⟩
    (by rw [hmn]; omega)
  have hcalls : completionCalls (HandleRequest env cfg req).2.trace =
      List.replicate m (chatRequest (ReplaceAllString body.RawMessage) GPT40314) ++
        List.replicate k (chatRequest (ReplaceAllString body.RawMessage) GPT3Dot5Turbo0301) := by
    unfold HandleRequest
    rw [hparse]
    simp only
    rw [hcomp]
    simp only
    rw [hc]
    simp only [State.init, List.nil_append, completionCalls_append, completionCalls_failedRounds,
      completionCalls, hmn]
    rw [← List.replicate_succ', Nat.sub_add_cancel hk]
  refine ⟨hcalls, ?_, ?_, ⟨j, hj1, ?_, ?_⟩, ?_⟩
  · unfold callsTo
    rw [hcalls, List.filter_append, List.length_append, callsTo_replicate_same,
      callsTo_replicate_other _ _ _ models_distinct.symm]
    rfl
  · unfold callsTo
    rw [hcalls, List.filter_append, List.length_append, callsTo_replicate_same,
      callsTo_replicate_other _ _ _ models_distinct]
    omega
  · rw [hmn] at hj2; exact hj2
  · unfold HandleRequest
    rw [hparse]
    simp only
    rw [hcomp]
    simp only
    rw [hs]
    simp [State.init, sendBackCalls_append, sendBackCalls_failedRounds, sendBackCalls,
      degradedNotice]
  · unfold HandleRequest
    rw [hparse]
    simp only
    rw [hcomp]

/-- Witness for C2, the scenario of the specification: raw message
`[CQ:at,qq=12345]hello`, budget 2, the primary model always fails, the secondary
model answers "hi". -/
theorem HandleRequest_secondary_success_witness :
    completionCalls (HandleRequest
        (scriptedEnv (fun n => if n < 2 then answerDown else answerWith "hi") fun _ => none)
        (sampleConfig "2" "0") sampleRequest).2.trace =
        List.replicate 2 (chatRequest "hello" GPT40314) ++
          List.replicate 1 (chatRequest "hello" GPT3Dot5Turbo0301) ∧
      callsTo GPT40314 (HandleRequest
        (scriptedEnv (fun n => if n < 2 then answerDown else answerWith "hi") fun _ => none)
        (sampleConfig "2" "0") sampleRequest).2.trace = 2 ∧
      callsTo GPT3Dot5Turbo0301 (HandleRequest
        (scriptedEnv (fun n => if n < 2 then answerDown else answerWith "hi") fun _ => none)
        (sampleConfig "2" "0") sampleRequest).2.trace = 1 ∧
      (∃ j, 1 ≤ j ∧ j ≤ 2 ∧ sendBackCalls (HandleRequest
        (scriptedEnv (fun n => if n < 2 then answerDown else answerWith "hi") fun _ => none)
        (sampleConfig "2" "0") sampleRequest).2.trace =
        List.replicate j ("(对话降级至GPT-3.5)\n" ++ "hi", 100, 12345)) ∧
      (HandleRequest
        (scriptedEnv (fun n => if n < 2 then answerDown else answerWith "hi") fun _ => none)
        (sampleConfig "2" "0") sampleRequest).1 = .returned none :=
  HandleRequest_secondary_success
    (scriptedEnv (fun n => if n < 2 then answerDown else answerWith "hi") fun _ => none)
    (sampleConfig "2" "0") sampleRequest sampleBody 2 1 "hi" rfl rfl (by decide) (by decide)
    (by intro i hi
        rcases i with _ | _ | i
        · rfl
        · rfl
        · omega)
    (by intro i hi; omega)
    rfl

/-- C3. If the event parses, `maxRetries` is `m > 0`, and every primary-model
call and every secondary-model call fails, then `HandleRequest` issues exactly
`2 * m` completion requests, `m` primary ones and then `m` secondary ones, and
every call of `SendGroupMessageBack` (there is at least one) carries exactly the
fixed all-failed notice, whatever the prompt and the errors. -/
theorem HandleRequest_all_failed (env : Env) (cfg : Config) (req : APIGatewayProxyRequest)
    (body : OnebotGroupMessageRequestBody) (m : Nat)
    (hparse : env.Unmarshal req.Body = .ok body)
    (hm : maxRetriesOf cfg = (m : Int)) (hpos : 0 < m)
    (hfail4 : ∀ i, i < m →
      (callOutcome env i (ReplaceAllString body.RawMessage) GPT40314).failed = true)
    (hfail : ∀ i, i < m →
      (callOutcome env (m + i) (ReplaceAllString body.RawMessage) GPT3Dot5Turbo0301).failed =
        true) :
    completionCalls (HandleRequest env cfg req).2.trace =
        List.replicate m (chatRequest (ReplaceAllString body.RawMessage) GPT40314) ++
          List.replicate m (chatRequest (ReplaceAllString body.RawMessage) GPT3Dot5Turbo0301) ∧
      (completionCalls (HandleRequest env cfg req).2.trace).length = 2 * m ∧
      callsTo GPT40314 (HandleRequest env cfg req).2.trace = m ∧
      callsTo GPT3Dot5Turbo0301 (HandleRequest env cfg req).2.trace = m ∧
      (∃ j, 1 ≤ j ∧ j ≤ m ∧ sendBackCalls (HandleRequest env cfg req).2.trace =
        List.replicate j ("GPT-4、GPT-3.5尝试均失败，请稍后再试。", body.GroupID, body.UserID)) ∧
      (HandleRequest env cfg req).1 = .returned none := by
  have hmn : (maxRetriesOf cfg).toNat = m := by rw [hm]; simp
  obtain ⟨err, hcomp⟩ := completionPhase_allFail env (ReplaceAllString body.RawMessage)
    (maxRetriesOf cfg) (retryDelayOf cfg) State.init (by rw [hmn]; exact hpos)
    (by intro i hi; rw [hmn] at hi; simpa [State.init] using hfail4 i hi)
    (by intro i hi; rw [hmn] at hi ⊢; simpa [State.init] using hfail i hi)
  obtain ⟨j, hj1, hj2, hc, hs⟩ := sendBackLoop_calls env cfg allFailedNotice body.GroupID
    body.UserID (retryDelayOf cfg) (maxRetriesOf cfg).toNat none
    ⟨State.init.completions + (maxRetriesOf cfg).toNat + (maxRetriesOf cfg).toNat,
      State.init.deliveries,
      State.init.trace ++ failedRounds (chatRequest (ReplaceAllString body.RawMessage) GPT40314)
          (sleepNanos (retryDelayOf cfg)) (maxRetriesOf cfg).toNat ++
        failedRounds (chatRequest (ReplaceAllString body.RawMessage) GPT3Dot5Turbo0301)
          (sleepNanos (retryDelayOf cfg)) (maxRetriesOf cfg).toNat⟩
    (by rw [hmn]; omega)
  have hcalls : completionCalls (HandleRequest env cfg req).2.trace =
      List.replicate m (chatRequest (ReplaceAllString body.RawMessage) GPT40314) ++
        List.replicate m (chatRequest (ReplaceAllString body.RawMessage) GPT3Dot5Turbo0301) := by
    unfold HandleRequest
    rw [hparse]
    simp only
    rw [hcomp]
    simp only
    rw [hc]
    simp only [State.init, List.nil_append, completionCalls_append, completionCalls_failedRounds,
      hmn]
  refine ⟨hcalls, ?_, ?_, ?_, ⟨j, hj1, ?_, ?_⟩, ?_⟩
  · rw [hcalls]; simp; omega
  · unfold callsTo
    rw [hcalls, List.filter_append, List.length_append, callsTo_replicate_same,
      callsTo_replicate_other _ _ _ models_distinct.symm]
    rfl
  · unfold callsTo
    rw [hcalls, List.filter_append, List.length_append, callsTo_replicate_same,
      callsTo_replicate_other _ _ _ models_distinct]
    omega
  · rw [hmn] at hj2; exact hj2
  · unfold HandleRequest
    rw [hparse]
    simp only
    rw [hcomp]
    simp only
    rw [hs]
    simp [State.init, sendBackCalls_append, sendBackCalls_failedRounds, allFailedNotice]
  · unfold HandleRequest
    rw [hparse]
    simp only
    rw [hcomp]

/-- Witness for C3: budget 2, every completion call fails. -/
theorem HandleRequest_all_failed_witness :
    completionCalls (HandleRequest (scriptedEnv (fun _ => answerDown) fun _ => none)
        (sampleConfig "2" "0") sampleRequest).2.trace =
        List.replicate 2 (chatRequest (ReplaceAllString sampleBody.RawMessage) GPT40314) ++
          List.replicate 2
            (chatRequest (ReplaceAllString sampleBody.RawMessage) GPT3Dot5Turbo0301) ∧
      (completionCalls (HandleRequest (scriptedEnv (fun _ => answerDown) fun _ => none)
        (sampleConfig "2" "0") sampleRequest).2.trace).length = 2 * 2 ∧
      callsTo GPT40314 (HandleRequest (scriptedEnv (fun _ => answerDown) fun _ => none)
        (sampleConfig "2" "0") sampleRequest).2.trace = 2 ∧
      callsTo GPT3Dot5Turbo0301 (HandleRequest (scriptedEnv (fun _ => answerDown) fun _ => none)
        (sampleConfig "2" "0") sampleRequest).2.trace = 2 ∧
      (∃ j, 1 ≤ j ∧ j ≤ 2 ∧ sendBackCalls (HandleRequest
        (scriptedEnv (fun _ => answerDown) fun _ => none)
        (sampleConfig "2" "0") sampleRequest).2.trace =
        List.replicate j ("GPT-4、GPT-3.5尝试均失败，请稍后再试。", sampleBody.GroupID,
          sampleBody.UserID)) ∧
      (HandleRequest (scriptedEnv (fun _ => answerDown) fun _ => none)
        (sampleConfig "2" "0") sampleRequest).1 = .returned none :=
  HandleRequest_all_failed (scriptedEnv (fun _ => answerDown) fun _ => none)
    (sampleConfig "2" "0") sampleRequest sampleBody 2 rfl rfl (by decide)
    (fun _ _ => rfl) (fun _ _ => rfl)

/-! ## Delivery after completion -/

theorem gpt4Loop_frame (env : Env) (prompt : String) (d : Int) :
    ∀ (n : Nat) (v : Reply) (st : State),
      (gpt4Loop env prompt d n v st).2.deliveries = st.deliveries ∧
      sendBackCalls (gpt4Loop env prompt d n v st).2.trace = sendBackCalls st.trace := by
  intro n
  induction n with
  | zero => intro v st; simp [gpt4Loop]
  | succ n ih =>
    intro v st
    have h1 := SendChatCompletion_snd env prompt GPT40314 st
    rw [gpt4Loop]
    rcases hx : SendChatCompletion env prompt GPT40314 st with ⟨r, st1⟩
    rw [hx] at h1
    simp only at h1
    subst h1
    cases r with
    | indexOutOfRange => simp [sendBackCalls_append, sendBackCalls]
    | returned text err =>
      cases err with
      | none => simp [sendBackCalls_append, sendBackCalls]
      | some e =>
        simp only
        obtain ⟨a, b⟩ := ih ⟨text, some e⟩
          (State.emit ⟨st.completions + 1, st.deliveries,
            st.trace ++ [.completion (chatRequest prompt GPT40314)]⟩ (.sleep (sleepNanos d)))
        rw [a, b]
        simp [State.emit, sendBackCalls_append, sendBackCalls]

theorem gpt35Loop_frame (env : Env) (prompt : String) (d : Int) :
    ∀ (n : Nat) (v : Reply) (st : State),
      (gpt35Loop env prompt d n v st).2.deliveries = st.deliveries ∧
      sendBackCalls (gpt35Loop env prompt d n v st).2.trace = sendBackCalls st.trace := by
  intro n
  induction n with
  | zero => intro v st; simp [gpt35Loop]
  | succ n ih =>
    intro v st
    have h1 := SendChatCompletion_snd env prompt GPT3Dot5Turbo0301 st
    rw [gpt35Loop]
    rcases hx : SendChatCompletion env prompt GPT3Dot5Turbo0301 st with ⟨r, st1⟩
    rw [hx] at h1
    simp only at h1
    subst h1
    cases r with
    | indexOutOfRange => simp [sendBackCalls_append, sendBackCalls]
    | returned text err =>
      cases err with
      | none => simp [sendBackCalls_append, sendBackCalls]
      | some e =>
        simp only
        obtain ⟨a, b⟩ := ih ⟨text, some e⟩
          (State.emit ⟨st.completions + 1, st.deliveries,
            st.trace ++ [.completion (chatRequest prompt GPT3Dot5Turbo0301)]⟩
            (.sleep (sleepNanos d)))
        rw [a, b]
        simp [State.emit, sendBackCalls_append, sendBackCalls]

theorem completionPhase_frame (env : Env) (prompt : String) (maxRetries d : Int) (st : State) :
    (completionPhase env prompt maxRetries d st).2.deliveries = st.deliveries ∧
    sendBackCalls (completionPhase env prompt maxRetries d st).2.trace =
      sendBackCalls st.trace := by
  unfold completionPhase
  obtain ⟨a, b⟩ := gpt4Loop_frame env prompt d maxRetries.toNat ⟨"", none⟩ st
  rcases hx : gpt4Loop env prompt d maxRetries.toNat ⟨"", none⟩ st with ⟨r, st1⟩
  rw [hx] at a b
  simp only at a b
  cases r with
  | none => exact ⟨a, b⟩
  | some v =>
    simp only
    cases hv : v.errOpenai with
    | none => exact ⟨a, b⟩
    | some e =>
      simp only
      obtain ⟨a2, b2⟩ := gpt35Loop_frame env prompt d maxRetries.toNat ⟨v.resp, none⟩ st1
      rcases hy : gpt35Loop env prompt d maxRetries.toNat ⟨v.resp, none⟩ st1 with ⟨r2, st2⟩
      rw [hy] at a2 b2
      simp only at a2 b2
      cases r2 with
      | none => exact ⟨a2.trans a, b2.trans b⟩
      | some w =>
        simp only
        cases hw : w.errOpenai with
        | none => exact ⟨a2.trans a, b2.trans b⟩
        | some e2 => exact ⟨a2.trans a, b2.trans b⟩

/-- C4. If the event parses, `maxRetries` is `m > 0` and the completion phase
ends with reply `v` (whichever of the three kinds), then `HandleRequest` runs
one delivery loop: when deliveries `1..j-1` fail and either delivery `j`
returns nil or `j = m`, the calls of `SendGroupMessageBack` are exactly `j`, all
with the reply text, the group id and the user id; and `HandleRequest` returns
nil. -/
theorem HandleRequest_delivery (env : Env) (cfg : Config) (req : APIGatewayProxyRequest)
    (body : OnebotGroupMessageRequestBody) (m j : Nat) (v : Reply) (st1 : State)
    (hparse : env.Unmarshal req.Body = .ok body)
    (hm : maxRetriesOf cfg = (m : Int))
    (hcomp : completionPhase env (ReplaceAllString body.RawMessage) (maxRetriesOf cfg)
      (retryDelayOf cfg) State.init = (some v, st1))
    (hj : 1 ≤ j) (hjm : j ≤ m)
    (hfail : ∀ i, i + 1 < j →
      deliveryResult env cfg i v.resp body.GroupID body.UserID ≠ none)
    (hlast : deliveryResult env cfg (j - 1) v.resp body.GroupID body.UserID = none ∨ j = m) :
    sendBackCalls (HandleRequest env cfg req).2.trace =
        List.replicate j (v.resp, body.GroupID, body.UserID) ∧
      (HandleRequest env cfg req).1 = .returned none := by
  have hmn : (maxRetriesOf cfg).toNat = m := by rw [hm]; simp
  obtain ⟨fd, fs⟩ := completionPhase_frame env (ReplaceAllString body.RawMessage)
    (maxRetriesOf cfg) (retryDelayOf cfg) State.init
  rw [hcomp] at fd fs
  simp only [State.init] at fd fs
  have hs0 : sendBackCalls st1.trace = [] := by simpa [sendBackCalls] using fs
  constructor
  · unfold HandleRequest
    rw [hparse]
    simp only
    rw [hcomp]
    simp only
    rw [hmn]
    rcases hres : deliveryResult env cfg (j - 1) v.resp body.GroupID body.UserID with _ | e
    · obtain ⟨_, _, a3, _⟩ := sendBackLoop_success env cfg v.resp body.GroupID body.UserID
        (retryDelayOf cfg) m (j - 1) none st1 (by omega)
        (by intro i hi; rw [fd]; simpa using hfail i (by omega))
        (by rw [fd]; simpa using hres)
      rw [a3, hs0, Nat.sub_add_cancel hj]
      rfl
    · have hjm2 : j = m := by
        rcases hlast with h | h
        · rw [hres] at h; exact absurd h (by simp)
        · exact h
      subst hjm2
      obtain ⟨_, a3, _⟩ := sendBackLoop_allFail env cfg v.resp body.GroupID body.UserID
        (retryDelayOf cfg) j none st1
        (by
          intro i hi
          rw [fd]
          rcases Nat.lt_or_ge (i + 1) j with h | h
          · simpa using hfail i h
          · have hi2 : i = j - 1 := by omega
            subst hi2
            simp [hres])
      rw [a3, hs0]
      rfl
  · unfold HandleRequest
    rw [hparse]
    simp only
    rw [hcomp]

/-- Witness for C4: budget 3, the primary model answers "hi", the first
delivery fails and the second goes through. -/
theorem HandleRequest_delivery_witness :
    sendBackCalls (HandleRequest
        (scriptedEnv (fun _ => answerWith "hi")
          fun n => if n = 0 then some ⟨"connection refused"⟩ else none)
        (sampleConfig "3" "0") sampleRequest).2.trace =
        List.replicate 2 ("hi", sampleBody.GroupID, sampleBody.UserID) ∧
      (HandleRequest
        (scriptedEnv (fun _ => answerWith "hi")
          fun n => if n = 0 then some ⟨"connection refused"⟩ else none)
        (sampleConfig "3" "0") sampleRequest).1 = .returned none :=
  HandleRequest_delivery
    (scriptedEnv (fun _ => answerWith "hi")
      fun n => if n = 0 then some ⟨"connection refused"⟩ else none)
    (sampleConfig "3" "0") sampleRequest sampleBody 3 2 ⟨"hi", none⟩
    ⟨1, 0, [.completion (chatRequest "hello" GPT40314)]⟩ rfl rfl rfl (by decide) (by decide)
    (by intro i hi
        have h0 : i = 0 := by omega
        subst h0
        intro h
        cases h)
    (Or.inl rfl)

/-! ## Waits -/

/-- C9 (as the code has it). In each completion tier the delay is waited after
every failed attempt, the last one included, and not after a success: from any
state, a tier whose first success is on attempt `k <= m` performs exactly
`k - 1` waits, and a tier in which all `m` calls fail performs exactly `m` waits
(not `m - 1`).  This holds for the primary loop and for the secondary loop. -/
theorem tier_waits (env : Env) (prompt : String) (d : Int) (m : Nat) (v : Reply) (st : State) :
    (∀ k t, 1 ≤ k → k ≤ m →
      (∀ i, i + 1 < k → (callOutcome env (st.completions + i) prompt GPT40314).failed = true) →
      callOutcome env (st.completions + (k - 1)) prompt GPT40314 = .returned t none →
      sleeps (gpt4Loop env prompt d m v st).2.trace =
        sleeps st.trace ++ List.replicate (k - 1) (sleepNanos d)) ∧
    ((∀ i, i < m → (callOutcome env (st.completions + i) prompt GPT40314).failed = true) →
      sleeps (gpt4Loop env prompt d m v st).2.trace =
        sleeps st.trace ++ List.replicate m (sleepNanos d)) ∧
    (∀ k t, 1 ≤ k → k ≤ m →
      (∀ i, i + 1 < k →
        (callOutcome env (st.completions + i) prompt GPT3Dot5Turbo0301).failed = true) →
      callOutcome env (st.completions + (k - 1)) prompt GPT3Dot5Turbo0301 = .returned t none →
      sleeps (gpt35Loop env prompt d m v st).2.trace =
        sleeps st.trace ++ List.replicate (k - 1) (sleepNanos d)) ∧
    ((∀ i, i < m →
        (callOutcome env (st.completions + i) prompt GPT3Dot5Turbo0301).failed = true) →
      sleeps (gpt35Loop env prompt d m v st).2.trace =
        sleeps st.trace ++ List.replicate m (sleepNanos d)) := by
  refine ⟨?_, ?_, ?_, ?_⟩
  · intro k t hk hkm hfail hsucc
    rw [gpt4Loop_success env prompt d t m (k - 1) v st (by omega)
      (fun i hi => hfail i (by omega)) hsucc]
    simp [sleeps_append, sleeps_failedRounds, sleeps]
  · intro hfail
    obtain ⟨w, hw, _, _⟩ := gpt4Loop_allFail env prompt d m v st hfail
    rw [hw]
    simp [sleeps_append, sleeps_failedRounds]
  · intro k t hk hkm hfail hsucc
    rw [gpt35Loop_success env prompt d t m (k - 1) v st (by omega)
      (fun i hi => hfail i (by omega)) hsucc]
    simp [sleeps_append, sleeps_failedRounds, sleeps]
  · intro hfail
    obtain ⟨w, hw, _, _⟩ := gpt35Loop_allFail env prompt d m v st hfail
    rw [hw]
    simp [sleeps_append, sleeps_failedRounds]

/-- Witness for C9: budget 2 and delay 5 s; a primary tier that succeeds on
attempt 2 waits once, a primary tier whose 2 calls fail waits twice. -/
theorem tier_waits_witness :
    sleeps (gpt4Loop
        (scriptedEnv (fun n => if n = 1 then answerWith "hi" else answerDown) fun _ => none)
        "hello" 5 2 ⟨"", none⟩ State.init).2.trace = [] ++ List.replicate (2 - 1) 5000000000 ∧
      sleeps (gpt4Loop (scriptedEnv (fun _ => answerDown) fun _ => none)
        "hello" 5 2 ⟨"", none⟩ State.init).2.trace = [] ++ List.replicate 2 5000000000 :=
  ⟨(tier_waits
      (scriptedEnv (fun n => if n = 1 then answerWith "hi" else answerDown) fun _ => none)
      "hello" 5 2 ⟨"", none⟩ State.init).1 2 "hi" (by decide) (by decide)
      (by intro i hi
          have h0 : i = 0 := by omega
          subst h0
          rfl)
      rfl,
    (tier_waits (scriptedEnv (fun _ => answerDown) fun _ => none)
      "hello" 5 2 ⟨"", none⟩ State.init).2.1 (fun _ _ => rfl)⟩

/-- C9 as stated fails: with budget 1 and a failing primary call, the primary
tier still waits once after its last (and only) attempt, not `1 - 1 = 0`
times. -/
theorem tier_waits_after_last_attempt :
    (∀ i, i < 1 →
      (callOutcome (scriptedEnv (fun _ => answerDown) fun _ => none) i "hello"
        GPT40314).failed = true) ∧
    ¬ ((sleeps (gpt4Loop (scriptedEnv (fun _ => answerDown) fun _ => none)
        "hello" 5 1 ⟨"", none⟩ State.init).2.trace).length = 1 - 1) := by
  constructor
  · intro i _; rfl
  · decide

/-! ## `SendChatCompletion` on an answer without choices -/

/-- C10 fails on the code: when the completion service answers without an
error and with an empty `choices` list, `SendChatCompletion` reads
`Choices[0]` out of range and panics instead of returning, and the panic ends
`HandleRequest` before any delivery. -/
theorem SendChatCompletion_empty_choices :
    (SendChatCompletion (scriptedEnv (fun _ => answerEmpty) fun _ => none) "hello" GPT40314
        State.init).1 = .indexOutOfRange ∧
      (HandleRequest (scriptedEnv (fun _ => answerEmpty) fun _ => none)
        (sampleConfig "3" "5") sampleRequest).1 = .panicked ∧
      sendBackCalls (HandleRequest (scriptedEnv (fun _ => answerEmpty) fun _ => none)
        (sampleConfig "3" "5") sampleRequest).2.trace = [] := by
  refine ⟨rfl, rfl, rfl⟩

/-! ## The outbound body -/

theorem digitChar_spec (d : Nat) (h : d < 10) :
    isDigit (digitChar d) = true ∧ digitVal (digitChar d) = d := by
  interval_cases d <;> exact ⟨rfl, rfl⟩

theorem parseDigits_digitChar (a d : Nat) (h : d < 10) (rest : List Char) :
    parseDigits a (digitChar d :: rest) = parseDigits (a * 10 + d) rest := by
  obtain ⟨h1, h2⟩ := digitChar_spec d h
  simp [parseDigits, h1, h2]

/-- The digit loop emits, in front of `acc`, a non-empty numeral that reads
back as `u`. -/
theorem formatBits_spec :
    ∀ (fuel u : Nat) (acc : List Char), u < fuel →
      ∃ ds, formatBits fuel u acc = ds ++ acc ∧ ds ≠ [] ∧
        ∀ a rest, parseDigits a (ds ++ rest) = parseDigits (a * 10 ^ ds.length + u) rest := by
  intro fuel
  induction fuel with
  | zero => intro u acc h; omega
  | succ fuel ih =>
    intro u acc hu
    rw [formatBits]
    split
    · rename_i hlt
      refine ⟨[digitChar u], rfl, by simp, ?_⟩
      intro a rest
      simp [parseDigits_digitChar a u hlt]
    · rename_i hge
      obtain ⟨ds, h1, _, h3⟩ := ih (u / 10) (digitChar (u % 10) :: acc) (by omega)
      refine ⟨ds ++ [digitChar (u % 10)], by simp [h1], by simp, ?_⟩
      intro a rest
      have hmod : u % 10 < 10 := Nat.mod_lt _ (by decide)
      rw [List.append_assoc, h3]
      simp only [List.singleton_append, List.length_append, List.length_singleton]
      rw [parseDigits_digitChar _ _ hmod]
      congr 1
      rw [pow_succ]
      have := Nat.div_add_mod u 10
      nlinarith [Nat.div_add_mod u 10]

theorem parseDecimal_FormatUint (u : Nat) : parseDecimal (FormatUint u) = some u := by
  obtain ⟨ds, h1, h2, h3⟩ := formatBits_spec (u + 1) u [] (by omega)
  unfold parseDecimal FormatUint
  simp only [h1, List.append_nil]
  cases ds with
  | nil => exact absurd rfl h2
  | cons c cs =>
    simp only
    have := h3 0 []
    simpa using this

theorem postedBodies_append (a b : List Event) :
    postedBodies (a ++ b) = postedBodies a ++ postedBodies b := by
  induction a with
  | nil => rfl
  | cons e es ih => cases e <;> simp [postedBodies, ih]

/-- C5. For every reply text, group id and user id, the value that
`SendGroupMessageBack` builds has `group_id` equal to the group id and a
`message` array of exactly two segments: first `at` with `qq` the decimal string
of the user id (it reads back as the user id), then `text` with the reply text;
that value is the body of the request the function sends whenever the request
can be created. -/
theorem SendGroupMessageBack_body (env : Env) (cfg : Config) (msg : String) (gid uid : Nat)
    (st : State) :
    (requestData msg gid uid).GroupID = gid ∧
      (requestData msg gid uid).Message =
        [{ type := "at", Data := [("qq", FormatUint uid)] },
          { type := "text", Data := [("text", msg)] }] ∧
      parseDecimal (FormatUint uid) = some uid ∧
      marshal (requestData msg gid uid) =
        .obj [("group_id", .num gid),
          ("message", .arr [
            .obj [("type", .str "at"), ("data", .obj [("qq", .str (FormatUint uid))])],
            .obj [("type", .str "text"), ("data", .obj [("text", .str msg)])]])] ∧
      postedBodies (SendGroupMessageBack env cfg msg gid uid st).2.trace =
        postedBodies st.trace ++
          (if (env.NewRequest (cfg.receiverAddr ++ "/send_group_msg")).isNone then
            [marshal (requestData msg gid uid)] else []) := by
  refine ⟨rfl, rfl, parseDecimal_FormatUint uid, rfl, ?_⟩
  unfold SendGroupMessageBack
  simp only
  split
  · rename_i err herr
    simp [herr, State.emit, postedBodies_append, postedBodies]
  · rename_i herr
    simp [herr, State.emit, postedBodies_append, postedBodies]

/-! ## The retry policy -/

/-- C7 as stated fails: `MAX_RETRIES=0` parses and gives zero attempts, and
`RETRY_DELAY=-1` parses and gives a negative delay. -/
theorem retry_policy_not_always_valid :
    maxRetriesOf (sampleConfig "0" "-1") = 0 ∧
      retryDelayOf (sampleConfig "0" "-1") = -1 ∧
      sleepNanos (retryDelayOf (sampleConfig "0" "-1")) = -1000000000 ∧
      ¬ validPolicy (sampleConfig "0" "-1") := by
  refine ⟨rfl, rfl, rfl, ?_⟩
  intro h
  have h1 : maxRetriesOf (sampleConfig "0" "-1") = 0 := rfl
  have := h.1
  rw [h1] at this
  exact absurd this (by decide)

/-- For a number of seconds of magnitude at most 9223372036 the int64 product
with `time.Second` does not wrap. -/
theorem sleepNanos_of_small (n : Int) (hlo : -9223372036 ≤ n) (hhi : n ≤ 9223372036) :
    sleepNanos n = n * 1000000000 := by
  unfold sleepNanos wrapInt64
  have h1 : (0 : Int) ≤ n * 1000000000 + 2 ^ 63 := by norm_num; omega
  have h2 : n * 1000000000 + 2 ^ 63 < (2 : Int) ^ 64 := by norm_num; omega
  rw [Int.emod_eq_of_lt h1 h2]
  ring

/-- C7 (as the code has it). When `MAX_RETRIES` is unset (empty) or `Atoi`
rejects it, `maxRetries` is 3; when `RETRY_DELAY` is unset or rejected, the
delay is 5 seconds.  A string that `Atoi` accepts is taken as it is, without
validation: `maxRetries` is the parsed integer, and the delay is the parsed
integer `n` of seconds, slept as the int64 product of `n` and 1000000000
nanoseconds.  For `n` of magnitude at most 9223372036 that product does not
wrap: it is `n * 1000000000` and is non-negative exactly when `n` is; beyond
that it wraps (9223372037 seconds are slept as a negative duration).  Hence,
for accepted values `a` and `b` with `b` of magnitude at most 9223372036, the
policy is valid exactly when `0 < a` and `0 <= b`. -/
theorem retry_policy_resolution (cfg : Config) :
    (cfg.envMaxRetries = "" → maxRetriesOf cfg = 3) ∧
      (cfg.envRetryDelay = "" →
        retryDelayOf cfg = 5 ∧ sleepNanos (retryDelayOf cfg) = 5 * 1000000000) ∧
      (∀ e, Atoi cfg.envMaxRetries = .error e → maxRetriesOf cfg = 3) ∧
      (∀ e, Atoi cfg.envRetryDelay = .error e →
        retryDelayOf cfg = 5 ∧ sleepNanos (retryDelayOf cfg) = 5 * 1000000000) ∧
      (∀ n, Atoi cfg.envMaxRetries = .ok n → maxRetriesOf cfg = n) ∧
      (∀ n, Atoi cfg.envRetryDelay = .ok n → retryDelayOf cfg = n) ∧
      (∀ n, Atoi cfg.envRetryDelay = .ok n → -9223372036 ≤ n → n ≤ 9223372036 →
        sleepNanos (retryDelayOf cfg) = n * 1000000000 ∧
          (0 ≤ sleepNanos (retryDelayOf cfg) ↔ 0 ≤ n)) ∧
      sleepNanos 9223372037 < 0 ∧
      (∀ a b, Atoi cfg.envMaxRetries = .ok a → Atoi cfg.envRetryDelay = .ok b →
        -9223372036 ≤ b → b ≤ 9223372036 → (validPolicy cfg ↔ 0 < a ∧ 0 ≤ b)) := by
  have hmax : ∀ n, Atoi cfg.envMaxRetries = .ok n → maxRetriesOf cfg = n := by
    intro n h
    unfold maxRetriesOf
    rw [h]
  have hdelay : ∀ n, Atoi cfg.envRetryDelay = .ok n → retryDelayOf cfg = n := by
    intro n h
    unfold retryDelayOf
    rw [h]
  refine ⟨?_, ?_, ?_, ?_, hmax, hdelay, ?_, by decide, ?_⟩
  · intro h
    unfold maxRetriesOf
    rw [h]
    rfl
  · intro h
    unfold retryDelayOf
    rw [h]
    exact ⟨rfl, rfl⟩
  · intro e h
    unfold maxRetriesOf
    rw [h]
  · intro e h
    unfold retryDelayOf
    rw [h]
    exact ⟨rfl, rfl⟩
  · intro n h hlo hhi
    rw [hdelay n h, sleepNanos_of_small n hlo hhi]
    refine ⟨rfl, ?_⟩
    constructor <;> intro h0 <;> omega
  · intro a b ha hb hlo hhi
    unfold validPolicy
    rw [hmax a ha, hdelay b hb, sleepNanos_of_small b hlo hhi]
    constructor
    · rintro ⟨h1, h2, _⟩
      exact ⟨h1, h2⟩
    · rintro ⟨h1, h2⟩
      exact ⟨h1, h2, by omega⟩

/-- Witness for C7: unset `MAX_RETRIES` and unparsable `RETRY_DELAY` give the
defaults; `MAX_RETRIES=4` with `RETRY_DELAY=7` is slept as 7000000000
nanoseconds and is a valid policy. -/
theorem retry_policy_resolution_witness :
    maxRetriesOf (sampleConfig "" "soon") = 3 ∧
      retryDelayOf (sampleConfig "" "soon") = 5 ∧
      sleepNanos (retryDelayOf (sampleConfig "" "soon")) = 5 * 1000000000 ∧
      maxRetriesOf (sampleConfig "4" "7") = 4 ∧
      retryDelayOf (sampleConfig "4" "7") = 7 ∧
      sleepNanos (retryDelayOf (sampleConfig "4" "7")) = 7 * 1000000000 ∧
      (validPolicy (sampleConfig "4" "7") ↔ (0 : Int) < 4 ∧ (0 : Int) ≤ 7) :=
  ⟨(retry_policy_resolution (sampleConfig "" "soon")).1 rfl,
    ((retry_policy_resolution (sampleConfig "" "soon")).2.2.2.1 errBadNumber rfl).1,
    ((retry_policy_resolution (sampleConfig "" "soon")).2.2.2.1 errBadNumber rfl).2,
    (retry_policy_resolution (sampleConfig "4" "7")).2.2.2.2.1 4 rfl,
    (retry_policy_resolution (sampleConfig "4" "7")).2.2.2.2.2.1 7 rfl,
    ((retry_policy_resolution (sampleConfig "4" "7")).2.2.2.2.2.2.1 7 rfl
      (by decide) (by decide)).1,
    (retry_policy_resolution (sampleConfig "4" "7")).2.2.2.2.2.2.2.2 4 7 rfl rfl
      (by decide) (by decide)⟩

/-! ## Mention stripping -/

theorem stripLiteral_eq_some (p l r : List Char) : stripLiteral p l = some r ↔ l = p ++ r := by
  induction p generalizing l with
  | nil => simp [stripLiteral, eq_comm]
  | cons a p ih =>
    cases l with
    | nil => simp [stripLiteral]
    | cons c cs =>
      simp only [stripLiteral, List.cons_append, List.cons.injEq]
      by_cases h : a = c
      · simp [h, ih]
      · simp [h, eq_comm]

/-- A mention token is the head literal, a non-empty run of digits, and `]`. -/
theorem isMentionToken_iff (t : List Char) :
    IsMentionToken t ↔
      ∃ ds : List Char, ds ≠ [] ∧ (∀ c ∈ ds, isDigit c = true) ∧ t = mentionOpen ++ ds ++ [']'] := by
  constructor
  · rintro ⟨h1, h2, h3, h4⟩
    refine ⟨(t.drop mentionOpen.length).dropLast, ?_, h3, ?_⟩
    · intro h
      have := congrArg List.length h
      rw [List.length_dropLast, List.length_nil] at this
      omega
    · have hr := List.dropLast_append_getLast? (l := t.drop mentionOpen.length) ']' (by simp [h4])
      rw [List.append_assoc, hr]
      conv_lhs => rw [← List.take_append_drop mentionOpen.length t, h1]
  · rintro ⟨ds, hne, hd, rfl⟩
    have hlen : mentionOpen.length = mentionOpen.length := rfl
    refine ⟨?_, ?_, ?_, ?_⟩
    · rw [List.append_assoc, List.take_left' hlen]
    · rw [List.append_assoc, List.drop_left' hlen]
      cases ds with
      | nil => exact absurd rfl hne
      | cons d ds => simp
    · rw [List.append_assoc, List.drop_left' hlen, List.dropLast_concat]
      exact hd
    · rw [List.append_assoc, List.drop_left' hlen, List.getLast?_concat]

theorem isDigit_close : isDigit ']' = false := by decide

theorem takeWhile_digits (ds rest : List Char) (hd : ∀ c ∈ ds, isDigit c = true) :
    (ds ++ ']' :: rest).takeWhile isDigit = ds ∧
      (ds ++ ']' :: rest).dropWhile isDigit = ']' :: rest := by
  constructor
  · rw [List.takeWhile_append_of_pos hd]
    simp [List.takeWhile_cons, isDigit_close]
  · rw [List.dropWhile_append_of_pos hd]
    simp [List.dropWhile_cons, isDigit_close]

/-- The matcher finds exactly the occurrences of a mention token at the head
of the text. -/
theorem matchMention_eq_some (l : List Char) (n : Nat) :
    matchMention l = some n ↔ n ≤ l.length ∧ IsMentionToken (l.take n) := by
  constructor
  · intro h
    unfold matchMention at h
    split at h
    · exact absurd h (by simp)
    · rename_i r hr
      rw [stripLiteral_eq_some] at hr
      split at h
      · rename_i d ds c rest htake hdrop
        split at h
        · rename_i hc
          subst hc
          simp only [Option.some.injEq] at h
          have hsplit := List.takeWhile_append_dropWhile isDigit r
          rw [htake, hdrop] at hsplit
          have hl : l = mentionOpen ++ (d :: ds) ++ [']'] ++ rest := by
            rw [hr, ← hsplit]; simp
          have hlen : (mentionOpen ++ (d :: ds) ++ [']']).length = n := by
            rw [← h]; simp; omega
          refine ⟨?_, ?_⟩
          · rw [hl, ← hlen]; simp
          · rw [hl, List.take_left' hlen, isMentionToken_iff]
            refine ⟨d :: ds, by simp, ?_, rfl⟩
            intro c hc
            rw [← htake] at hc
            exact List.mem_takeWhile_imp hc
        · exact absurd h (by simp)
      · exact absurd h (by simp)
  · rintro ⟨hn, ht⟩
    rw [isMentionToken_iff] at ht
    obtain ⟨ds, hne, hd, htake⟩ := ht
    have hl : l = mentionOpen ++ (ds ++ ']' :: l.drop n) := by
      conv_lhs => rw [← List.take_append_drop n l, htake]
      simp
    have hlen : n = mentionOpen.length + ds.length + 1 := by
      have := congrArg List.length htake
      simp [List.length_take, hn] at this
      omega
    have hs : stripLiteral mentionOpen l = some (ds ++ ']' :: l.drop n) :=
      (stripLiteral_eq_some _ _ _).2 hl
    obtain ⟨ht1, ht2⟩ := takeWhile_digits ds (l.drop n) hd
    unfold matchMention
    rw [hs]
    simp only
    rw [ht1, ht2]
    cases ds with
    | nil => exact absurd rfl hne
    | cons d ds =>
      simp only [if_true]
      rw [hlen]
      simp

theorem isDigit_ne_open (c : Char) (h : isDigit c = true) : c ≠ '[' := by
  intro hc
  subst hc
  exact absurd h (by decide)

/-- A mention token starts with `[` and has no other `[`. -/
theorem token_brackets (t : List Char) (ht : IsMentionToken t) :
    t[0]? = some '[' ∧ ∀ j, 0 < j → t[j]? ≠ some '[' := by
  rw [isMentionToken_iff] at ht
  obtain ⟨ds, _, hd, rfl⟩ := ht
  constructor
  · rfl
  · intro j hj hget
    obtain ⟨j, rfl⟩ : ∃ j', j = j' + 1 := ⟨j - 1, by omega⟩
    have hmem : '[' ∈ ['C', 'Q', ':', 'a', 't', ',', 'q', 'q', '='] ++ ds ++ [']'] := by
      apply List.getElem?_mem (n := j)
      simpa [mentionOpen] using hget
    simp only [List.mem_append, List.mem_singleton] at hmem
    rcases hmem with (h | h) | h
    · exact absurd h (by decide)
    · exact isDigit_ne_open _ (hd _ h) rfl
    · exact absurd h (by decide)

theorem token_length (t : List Char) (ht : IsMentionToken t) : 12 ≤ t.length := by
  rw [isMentionToken_iff] at ht
  obtain ⟨ds, hne, _, rfl⟩ := ht
  cases ds with
  | nil => exact absurd rfl hne
  | cons d ds => simp [mentionOpen]

theorem occursAt_length {s : List Char} {i n : Nat} (h : OccursAt s i n) : 12 ≤ n := by
  have := token_length _ h.2
  rw [List.length_take, List.length_drop] at this
  omega

theorem occursAt_iff_match (s : List Char) (i n : Nat) :
    OccursAt s i n ↔ matchMention (s.drop i) = some n := by
  rw [matchMention_eq_some, List.length_drop]
  constructor
  · rintro ⟨h1, h2⟩
    exact ⟨by omega, h2⟩
  · rintro ⟨h1, h2⟩
    have := token_length _ h2
    rw [List.length_take, List.length_drop] at this
    exact ⟨by omega, h2⟩

theorem occursAt_unique {s : List Char} {i n m : Nat} (h1 : OccursAt s i n)
    (h2 : OccursAt s i m) : n = m := by
  rw [occursAt_iff_match] at h1 h2
  rw [h1] at h2
  exact Option.some.inj h2

theorem occursAt_getElem? {s : List Char} {i n : Nat} (_h : OccursAt s i n) (j : Nat)
    (hj : j < n) : ((s.drop i).take n)[j]? = s[i + j]? := by
  rw [List.getElem?_take, if_pos hj, List.getElem?_drop]

/-- Two different occurrences of a mention token do not overlap. -/
theorem occursAt_disjoint {s : List Char} {k n i m : Nat} (h1 : OccursAt s k n)
    (h2 : OccursAt s i m) (hki : k < i) (hik : i < k + n) : False := by
  have hm := occursAt_length h2
  have a := (token_brackets _ h2.2).1
  rw [occursAt_getElem? h2 0 (by omega)] at a
  have b := (token_brackets _ h1.2).2 (i - k) (by omega)
  rw [occursAt_getElem? h1 (i - k) (by omega)] at b
  have e : k + (i - k) = i + 0 := by omega
  rw [e] at b
  exact b a

theorem inMention_iff (s : List Char) (p : Nat) :
    InMention s p ↔ ∃ i n, i ≤ p ∧ p < i + n ∧ OccursAt s i n := by
  constructor
  · rintro ⟨i, hi, n, _, hp, ho⟩
    exact ⟨i, n, by omega, hp, ho⟩
  · rintro ⟨i, n, hi, hp, ho⟩
    exact ⟨i, by omega, n, by have := ho.1; omega, hp, ho⟩

theorem hasMention_iff (s : List Char) : HasMention s ↔ ∃ i n, OccursAt s i n := by
  constructor
  · rintro ⟨i, _, n, _, ho⟩
    exact ⟨i, n, ho⟩
  · rintro ⟨i, n, ho⟩
    exact ⟨i, by have := ho.1; omega, n, by have := ho.1; omega, ho⟩

theorem replaceAllFrom_skip (k : Nat) (l : List Char) :
    replaceAllFrom k l = replaceAllFrom 0 (l.drop k) := by
  induction k generalizing l with
  | zero => rfl
  | succ k ih =>
    cases l with
    | nil => simp [replaceAllFrom]
    | cons c cs => simp [replaceAllFrom, ih]

theorem replaceAllFrom_match (l : List Char) (n : Nat) (h : matchMention l = some n) :
    replaceAllFrom 0 l = replaceAllFrom 0 (l.drop n) := by
  have hn : 12 ≤ n := by
    have := token_length _ ((matchMention_eq_some l n).1 h).2
    rw [List.length_take] at this
    omega
  cases l with
  | nil => simp [replaceAllFrom]
  | cons c cs =>
    rw [replaceAllFrom, h]
    simp only
    rw [replaceAllFrom_skip]
    obtain ⟨n, rfl⟩ : ∃ n', n = n' + 1 := ⟨n - 1, by omega⟩
    simp

theorem replaceAllFrom_noMatch (c : Char) (cs : List Char) (h : matchMention (c :: cs) = none) :
    replaceAllFrom 0 (c :: cs) = c :: replaceAllFrom 0 cs := by
  rw [replaceAllFrom, h]

/-- The characters of `s` from position `k` on that lie outside all
occurrences. -/
theorem keptFrom_step (s : List Char) (k : Nat) (hk : k < s.length) :
    ((List.range' k (s.length - k)).filterMap fun p =>
        if InMention s p then none else s[p]?) =
      (if InMention s k then [] else [s[k]]) ++
        ((List.range' (k + 1) (s.length - (k + 1))).filterMap fun p =>
          if InMention s p then none else s[p]?) := by
  obtain ⟨r, hr⟩ : ∃ r, s.length - k = r + 1 := ⟨s.length - k - 1, by omega⟩
  have hr2 : s.length - (k + 1) = r := by omega
  rw [hr, hr2, List.range'_succ, List.filterMap_cons]
  by_cases h : InMention s k
  · simp [h]
  · simp [h, List.getElem?_eq_getElem hk]

theorem keptFrom_skip (s : List Char) (k : Nat) :
    ∀ n, k + n ≤ s.length → (∀ p, k ≤ p → p < k + n → InMention s p) →
      ((List.range' k (s.length - k)).filterMap fun p =>
          if InMention s p then none else s[p]?) =
        ((List.range' (k + n) (s.length - (k + n))).filterMap fun p =>
          if InMention s p then none else s[p]?) := by
  intro n
  induction n generalizing k with
  | zero => intro _ _; rfl
  | succ n ih =>
    intro hle hin
    rw [keptFrom_step s k (by omega), if_pos (hin k (le_refl _) (by omega)), List.nil_append,
      ih (k + 1) (by omega) (fun p hp1 hp2 => hin p (by omega) (by omega))]
    have e : k + 1 + n = k + (n + 1) := by omega
    rw [e]

/-- The scan from position `k`, when no occurrence straddles `k`, yields the
characters from `k` on that lie outside all occurrences. -/
theorem replaceAllFrom_drop (s : List Char) :
    ∀ (fuel k : Nat), s.length - k ≤ fuel →
      (∀ i n, OccursAt s i n → i < k → k < i + n → False) →
      replaceAllFrom 0 (s.drop k) =
        (List.range' k (s.length - k)).filterMap fun p =>
          if InMention s p then none else s[p]? := by
  intro fuel
  induction fuel with
  | zero =>
    intro k hk _
    have h0 : s.length - k = 0 := by omega
    rw [List.drop_eq_nil_of_le (by omega), h0]
    rfl
  | succ fuel ih =>
    intro k hfuel hstr
    by_cases hk : k < s.length
    · cases hm : matchMention (s.drop k) with
      | none =>
        have hnot : ¬ InMention s k := by
          rw [inMention_iff]
          rintro ⟨i, n, hi, hp, ho⟩
          rcases Nat.lt_or_ge i k with h | h
          · exact hstr i n ho h hp
          · have hik : i = k := by omega
            subst hik
            rw [occursAt_iff_match, hm] at ho
            exact absurd ho (by simp)
        rw [keptFrom_step s k hk, if_neg hnot, ← ih (k + 1) (by omega)]
        · rw [List.drop_eq_getElem_cons hk] at hm ⊢
          rw [replaceAllFrom_noMatch _ _ hm]
          rfl
        · intro i n ho h1 h2
          apply hnot
          rw [inMention_iff]
          exact ⟨i, n, by omega, by omega, ho⟩
      | some n =>
        have ho : OccursAt s k n := (occursAt_iff_match s k n).2 hm
        have hn := occursAt_length ho
        rw [replaceAllFrom_match _ _ hm, List.drop_drop,
          keptFrom_skip s k n ho.1
            (fun p hp1 hp2 => (inMention_iff s p).2 ⟨k, n, hp1, hp2, ho⟩)]
        apply ih (k + n) (by omega)
        intro i m ho2 h1 h2
        rcases Nat.lt_trichotomy i k with h | h | h
        · exact hstr i m ho2 h (by omega)
        · subst h
          have := occursAt_unique ho ho2
          omega
        · exact occursAt_disjoint ho ho2 h h1
    · have h0 : s.length - k = 0 := by omega
      rw [List.drop_eq_nil_of_le (by omega), h0]
      rfl

theorem replaceAllFrom_eq_deleteMentions (s : List Char) :
    replaceAllFrom 0 s = deleteMentions s := by
  have := replaceAllFrom_drop s s.length 0 (by omega) (fun i n _ h _ => by omega)
  simpa [deleteMentions, List.range_eq_range'] using this

theorem replaceAllFrom_sublist : ∀ (l : List Char) (k : Nat), (replaceAllFrom k l).Sublist l := by
  intro l
  induction l with
  | nil => intro k; simp [replaceAllFrom]
  | cons c cs ih =>
    intro k
    cases k with
    | zero =>
      rw [replaceAllFrom]
      split
      · exact List.Sublist.cons _ (ih _)
      · exact List.Sublist.cons₂ _ (ih _)
    | succ k =>
      rw [replaceAllFrom]
      exact List.Sublist.cons _ (ih _)

theorem replaceAllFrom_clean (l : List Char) (h : ∀ k, matchMention (l.drop k) = none) :
    replaceAllFrom 0 l = l := by
  induction l with
  | nil => rfl
  | cons c cs ih =>
    rw [replaceAllFrom_noMatch c cs (h 0), ih (fun k => h (k + 1))]

theorem filterMap_length_lt {α β : Type} (f : α → Option β) :
    ∀ (l : List α) (x : α), x ∈ l → f x = none → (l.filterMap f).length < l.length := by
  intro l
  induction l with
  | nil => intro x hx; cases hx
  | cons a l ih =>
    intro x hx hfx
    rcases List.mem_cons.1 hx with h | h
    · subst h
      rw [List.filterMap_cons_none hfx]
      have := List.length_filterMap_le f l
      simp only [List.length_cons]
      omega
    · have := ih x h hfx
      cases hfa : f a with
      | none =>
        rw [List.filterMap_cons_none hfa]
        simp only [List.length_cons]
        omega
      | some b =>
        rw [List.filterMap_cons_some hfa]
        simp only [List.length_cons]
        omega

/-- A text is left unchanged by the scan exactly when it contains no mention
token. -/
theorem replaceAllFrom_fixed_iff (s : List Char) : replaceAllFrom 0 s = s ↔ ¬ HasMention s := by
  constructor
  · intro h hm
    rw [hasMention_iff] at hm
    obtain ⟨i, n, ho⟩ := hm
    have hn := occursAt_length ho
    have hin : InMention s i := (inMention_iff s i).2 ⟨i, n, le_refl _, by omega, ho⟩
    have hlt := filterMap_length_lt (fun p => if InMention s p then none else s[p]?)
      (List.range s.length) i (List.mem_range.2 (by have := ho.1; omega)) (by simp [hin])
    rw [replaceAllFrom_eq_deleteMentions] at h
    unfold deleteMentions at h
    rw [h, List.length_range] at hlt
    omega
  · intro h
    apply replaceAllFrom_clean
    intro k
    cases hm : matchMention (s.drop k) with
    | none => rfl
    | some n =>
      exact absurd ((hasMention_iff s).2 ⟨k, n, (occursAt_iff_match s k n).2 hm⟩) h

/-- C6. For every raw text `s`, the clean prompt is `s` with every occurrence of
a mention token (`[CQ:at,qq=`, one or more ASCII digits, `]`) deleted and
nothing else changed: it consists of the characters of `s` at the positions
outside all occurrences, in their original order (so it is a subsequence of
`s`), and a text without any occurrence is returned unchanged. -/
theorem ReplaceAllString_deletes_mentions (s : String) :
    (ReplaceAllString s).data = deleteMentions s.data ∧
      (ReplaceAllString s).data.Sublist s.data ∧
      (¬ HasMention s.data → ReplaceAllString s = s) := by
  refine ⟨replaceAllFrom_eq_deleteMentions s.data, replaceAllFrom_sublist s.data 0, ?_⟩
  intro h
  unfold ReplaceAllString
  rw [(replaceAllFrom_fixed_iff s.data).2 h]

/-- Witness for C6: a text with a malformed mention (no digit) and a multi-byte
character has no mention token and is returned unchanged. -/
theorem ReplaceAllString_deletes_mentions_witness :
    (ReplaceAllString "[CQ:at,qq=]héllo").data = deleteMentions "[CQ:at,qq=]héllo".data ∧
      (ReplaceAllString "[CQ:at,qq=]héllo").data.Sublist "[CQ:at,qq=]héllo".data ∧
      ReplaceAllString "[CQ:at,qq=]héllo" = "[CQ:at,qq=]héllo" :=
  ⟨(ReplaceAllString_deletes_mentions "[CQ:at,qq=]héllo").1,
    (ReplaceAllString_deletes_mentions "[CQ:at,qq=]héllo").2.1,
    (ReplaceAllString_deletes_mentions "[CQ:at,qq=]héllo").2.2 (by decide)⟩

/-- C8 as stated fails: deleting the inner mention of `[CQ:at,qq=1[CQ:at,qq=2]]`
joins the text around it into a new mention token, so the clean prompt
`[CQ:at,qq=1]` still contains a token and a second pass changes it. -/
theorem ReplaceAllString_not_idempotent :
    ReplaceAllString "[CQ:at,qq=1[CQ:at,qq=2]]" = "[CQ:at,qq=1]" ∧
      HasMention (ReplaceAllString "[CQ:at,qq=1[CQ:at,qq=2]]").data ∧
      ReplaceAllString (ReplaceAllString "[CQ:at,qq=1[CQ:at,qq=2]]") = "" ∧
      ReplaceAllString (ReplaceAllString "[CQ:at,qq=1[CQ:at,qq=2]]") ≠
        ReplaceAllString "[CQ:at,qq=1[CQ:at,qq=2]]" := by
  decide

/-- C8 (as the code has it). Mention stripping leaves a text unchanged exactly
when the text contains no mention token; hence stripping twice equals
stripping once exactly when the clean prompt contains no mention token, which
one pass does not guarantee. -/
theorem ReplaceAllString_fixed_iff (s : String) :
    (ReplaceAllString s = s ↔ ¬ HasMention s.data) ∧
      (ReplaceAllString (ReplaceAllString s) = ReplaceAllString s ↔
        ¬ HasMention (ReplaceAllString s).data) := by
  have key : ∀ t : String, ReplaceAllString t = t ↔ ¬ HasMention t.data := by
    intro t
    rw [← replaceAllFrom_fixed_iff t.data]
    unfold ReplaceAllString
    constructor
    · intro h
      exact congrArg String.data h
    · intro h
      rw [h]
  exact ⟨key s, key (ReplaceAllString s)⟩

end OnebotLambda
